import Mathlib

/-!
Verification development for `CesiumEncodedFeaturesMetadata.cpp`
(`cesium-unreal`, Source/CesiumRuntime/Private).

The C++ source is shallowly embedded below.  Conventions used throughout:

* `FString` is embedded as `String`; `TArray`/`TMap` as `List` (a `TMap` is
  embedded as an association list in its iteration order).
* Pointer identity of a `CesiumGltf::ImageCesium*` is embedded as a `Nat`
  image id; pointer identity of a heap-allocated `LoadedTextureResult` is
  embedded as a `Nat` field `id` handed out by a running allocation counter,
  so two handles are the same pointer exactly when their `id`s agree.
* `createTexturePlatformData` (an external collaborator that can fail when
  texture memory is exhausted) is embedded as a boolean oracle passed in as
  a parameter (`allocOk`); likewise `loadTextureGameThreadPart` outcomes
  (`loadOk`) and the `canEncode` predicates of the two conversion classes,
  which live in a different translation unit (`coerceCanEncode`,
  `parseColorCanEncode`).
* `UE_LOG` side effects are embedded by returning the list of emitted log
  severities alongside the ordinary return value.
* C++ fields named `Type` are embedded with the lower-case field name `type`
  (`Type` is reserved in Lean); the field `attribute` of the C++
  `EncodedFeatureIdSet` is embedded as `attributeIndex` and the
  `GetAsFeatureIDAttribute` / `GetAsFeatureIDTexture` views of
  `FCesiumFeatureIdSet` as fields `asAttribute` / `asTexture`.
-/

namespace CesiumEncodedFeaturesMetadata

/-- Severity of a `UE_LOG` message (message texts are elided). -/
inductive LogSeverity where
  | Warning
  | Error
deriving Repr, DecidableEq

/-- The subset of `EPixelFormat` used by this translation unit. -/
inductive EPixelFormat where
  | PF_Unknown
  | PF_R8_UINT
  | PF_R8G8B8A8_UINT
  | PF_R32_FLOAT
  | PF_A32B32G32R32F
deriving Repr, DecidableEq

/-- `ECesiumFeatureIdSetType` from `CesiumFeatureIdSet.h`. -/
inductive ECesiumFeatureIdSetType where
  | None
  | Attribute
  | Texture
  | Implicit
deriving Repr, DecidableEq

/-- Status of a feature ID attribute; the source only branches on `Valid`,
so every error variant is collapsed into `Invalid`. -/
inductive ECesiumFeatureIdAttributeStatus where
  | Valid
  | Invalid
deriving Repr, DecidableEq

/-- Status of a feature ID texture; the source only branches on `Valid`. -/
inductive ECesiumFeatureIdTextureStatus where
  | Valid
  | Invalid
deriving Repr, DecidableEq

/-- Status of a property table property; the source only branches on
`Valid`. -/
inductive ECesiumPropertyTablePropertyStatus where
  | Valid
  | Invalid
deriving Repr, DecidableEq

/-- `ECesiumEncodedMetadataType` (declared encoded value type). -/
inductive ECesiumEncodedMetadataType where
  | None
  | Scalar
  | Vec2
  | Vec3
  | Vec4
deriving Repr, DecidableEq

/-- `ECesiumEncodedMetadataComponentType`. -/
inductive ECesiumEncodedMetadataComponentType where
  | None
  | Uint8
  | Float
deriving Repr, DecidableEq

/-- `ECesiumEncodedMetadataConversion`. -/
inductive ECesiumEncodedMetadataConversion where
  | None
  | Coerce
  | ParseColorFromString
deriving Repr, DecidableEq

/-- `ECesiumMetadataType` (live value type of a metadata property). -/
inductive ECesiumMetadataType where
  | Invalid
  | Scalar
  | Vec2
  | Vec3
  | Vec4
  | Mat2
  | Mat3
  | Mat4
  | Boolean
  | Enum
  | String
deriving Repr, DecidableEq

/-- `ECesiumMetadataComponentType` (live component type). -/
inductive ECesiumMetadataComponentType where
  | None
  | Int8
  | Uint8
  | Int16
  | Uint16
  | Int32
  | Uint32
  | Int64
  | Uint64
  | Float32
  | Float64
deriving Repr, DecidableEq

/-- `FCesiumMetadataValueType`. -/
structure FCesiumMetadataValueType where
  type : ECesiumMetadataType := .Invalid
  ComponentType : ECesiumMetadataComponentType := .None
  bIsArray : Bool := false
deriving Repr, DecidableEq

/-- `FCesiumMetadataValue`, embedded as an abstract token: none of the code
verified here inspects a metadata value, it only copies values around. -/
structure FCesiumMetadataValue where
  token : Nat := 0
deriving Repr, DecidableEq

/-- `CesiumTextureUtility::LoadedTextureResult` as far as this translation
unit observes it.  `id` embeds the heap identity of the handle (two handles
are the same C++ pointer exactly when their `id`s agree);
`hasTextureData` embeds `pTextureData != nullptr`, i.e. whether
`createTexturePlatformData` succeeded for this handle. -/
structure LoadedTextureResult where
  id : Nat := 0
  width : Nat := 0
  height : Nat := 0
  format : EPixelFormat := .PF_Unknown
  hasTextureData : Bool := false
deriving Repr, DecidableEq

/-- `EncodedFeatureIdTexture`: channel list, texture coordinate set index
and the (shared) texture handle. -/
structure EncodedFeatureIdTexture where
  channels : List Nat := []
  textureCoordinateSetIndex : Int := 0
  pTexture : LoadedTextureResult := {}
deriving Repr, DecidableEq

/-- `EncodedFeatureIdSet`.  The C++ field `attribute`
(`std::optional<int32>`) is embedded as `attributeIndex`. -/
structure EncodedFeatureIdSet where
  name : String := ""
  index : Nat := 0
  propertyTableName : String := ""
  nullFeatureId : Int := -1
  attributeIndex : Option Int := none
  texture : Option EncodedFeatureIdTexture := none
deriving Repr, DecidableEq

/-- The attribute view of a feature ID set
(`FCesiumFeatureIdAttribute`). -/
structure FCesiumFeatureIdAttribute where
  status : ECesiumFeatureIdAttributeStatus := .Invalid
  attributeIndex : Int := -1
deriving Repr, DecidableEq

/-- The texture view of a feature ID set (`FCesiumFeatureIdTexture`
together with the parts of its `FeatureIdTextureView` the source reads:
channels, texcoord set index and the source image).  `imageId` embeds the
identity of the `CesiumGltf::ImageCesium*` returned by `getImage`. -/
structure FCesiumFeatureIdTexture where
  status : ECesiumFeatureIdTextureStatus := .Invalid
  channels : List Nat := []
  texCoordSetIndex : Int := 0
  imageId : Nat := 0
  imageWidth : Nat := 0
  imageHeight : Nat := 0
deriving Repr, DecidableEq

/-- `FCesiumFeatureIdSet`: its blueprint-library accessors `GetLabel`,
`GetFeatureIDSetType`, `GetAsFeatureIDAttribute`, `GetAsFeatureIDTexture`
and `GetNullFeatureID` are embedded as fields. -/
structure FCesiumFeatureIdSet where
  label : String := ""
  type : ECesiumFeatureIdSetType := .None
  asAttribute : FCesiumFeatureIdAttribute := {}
  asTexture : FCesiumFeatureIdTexture := {}
  nullFeatureId : Int := -1
deriving Repr, DecidableEq

/-- `FCesiumFeatureIdSetDescription` (requested feature ID set). -/
structure FCesiumFeatureIdSetDescription where
  Name : String := ""
  PropertyTableName : String := ""
deriving Repr, DecidableEq

/-- `FCesiumPrimitiveFeaturesDescription`. -/
structure FCesiumPrimitiveFeaturesDescription where
  FeatureIdSets : List FCesiumFeatureIdSetDescription := []
deriving Repr, DecidableEq

/-- `FCesiumPrimitiveFeatures`: `GetFeatureIDSets` is embedded as a
field. -/
structure FCesiumPrimitiveFeatures where
  featureIdSets : List FCesiumFeatureIdSet := []
deriving Repr, DecidableEq

/-- `EncodedPrimitiveFeatures`. -/
structure EncodedPrimitiveFeatures where
  featureIdSets : List EncodedFeatureIdSet := []
deriving Repr, DecidableEq

/-- `getNameForFeatureIDSet` (lines 30 to 69): explicit label if present;
otherwise a generated name depending on the set type.  The by-reference
`FeatureIdTextureCounter` argument is embedded by returning the updated
counter alongside the name. -/
def getNameForFeatureIDSet (featureIDSet : FCesiumFeatureIdSet)
    (FeatureIdTextureCounter : Int) : String × Int :=
  if featureIDSet.label ≠ "" then
    (featureIDSet.label, FeatureIdTextureCounter)
  else if featureIDSet.type = .Attribute ∧
      featureIDSet.asAttribute.status = .Valid then
    ("_FEATURE_ID_" ++ toString featureIDSet.asAttribute.attributeIndex,
      FeatureIdTextureCounter)
  else if featureIDSet.type = .Texture then
    ("_FEATURE_ID_TEXTURE_" ++ toString FeatureIdTextureCounter,
      FeatureIdTextureCounter + 1)
  else if featureIDSet.type = .Implicit then
    ("_IMPLICIT_FEATURE_ID", FeatureIdTextureCounter)
  else
    ("", FeatureIdTextureCounter)

/-- `encodeFeatureIdAttribute` (lines 81 to 98): valid attributes produce a
descriptor carrying only the attribute index; invalid ones log a warning
and are skipped. -/
def encodeFeatureIdAttribute (attribute_value : FCesiumFeatureIdAttribute) :
    Option EncodedFeatureIdSet × List LogSeverity :=
  if attribute_value.status ≠ .Valid then
    (none, [.Warning])
  else
    (some { attributeIndex := some attribute_value.attributeIndex }, [])

/-- Result of one `encodeFeatureIdTexture` call: the optional descriptor,
the updated image deduplication map, the updated handle-allocation counter
and the emitted log messages. -/
structure FeatureIdSetStepResult where
  encodedSet : Option EncodedFeatureIdSet := none
  map : List (Nat × LoadedTextureResult) := []
  nextId : Nat := 0
  logs : List LogSeverity := []
deriving Repr, DecidableEq

/-- `encodeFeatureIdTexture` (lines 100 to 177).  The
`featureIdTextureMap` (`TMap<const ImageCesium*, TWeakPtr<...>>`) is
embedded as an association list from image id to handle; within one encode
pass no handle is released, so `Pin` always succeeds and the weak pointer
is embedded by the handle itself.  Note that on a cache miss the map entry
is emplaced before `createTexturePlatformData` is checked, exactly as in
the source: a failed allocation still leaves its (data-less) handle in the
map. -/
def encodeFeatureIdTexture (allocOk : Nat → Bool)
    (texture : FCesiumFeatureIdTexture)
    (featureIdTextureMap : List (Nat × LoadedTextureResult))
    (nextId : Nat) : FeatureIdSetStepResult :=
  if texture.status ≠ .Valid then
    { encodedSet := none, map := featureIdTextureMap, nextId := nextId,
      logs := [.Warning] }
  else
    match featureIdTextureMap.find? (fun p => p.1 == texture.imageId) with
    | some entry =>
        let encTex : EncodedFeatureIdTexture :=
          { channels := texture.channels,
            textureCoordinateSetIndex := texture.texCoordSetIndex,
            pTexture := entry.2 }
        { encodedSet := some { texture := some encTex },
          map := featureIdTextureMap, nextId := nextId, logs := [] }
    | none =>
        let tex : LoadedTextureResult :=
          { id := nextId, width := texture.imageWidth,
            height := texture.imageHeight,
            format := .PF_R8G8B8A8_UINT,
            hasTextureData := allocOk nextId }
        let map' := featureIdTextureMap ++ [(texture.imageId, tex)]
        if allocOk nextId then
          let encTex : EncodedFeatureIdTexture :=
            { channels := texture.channels,
              textureCoordinateSetIndex := texture.texCoordSetIndex,
              pTexture := tex }
          { encodedSet := some { texture := some encTex },
            map := map', nextId := nextId + 1, logs := [] }
        else
          { encodedSet := none, map := map', nextId := nextId + 1,
            logs := [.Error] }

/-- Loop state of `encodePrimitiveFeaturesAnyThreadPart`: the output array,
the running `featureIdTextureCounter`, the image deduplication map, the
handle-allocation counter and the accumulated log. -/
structure FeatEncState where
  result : List EncodedFeatureIdSet := []
  counter : Int := 0
  map : List (Nat × LoadedTextureResult) := []
  nextId : Nat := 0
  logs : List LogSeverity := []
deriving Repr, DecidableEq

/-- The dispatch on the feature ID set type inside the loop of
`encodePrimitiveFeaturesAnyThreadPart` (lines 214 to 228): the C++
`if`/`else if` chain over `GetFeatureIDSetType`. -/
def encodeFeatureIdSetStep (allocOk : Nat → Bool)
    (set : FCesiumFeatureIdSet) (st : FeatEncState) :
    FeatureIdSetStepResult :=
  match set.type with
  | .Attribute =>
      let r := encodeFeatureIdAttribute set.asAttribute
      { encodedSet := r.fst, map := st.map, nextId := st.nextId,
        logs := r.snd }
  | .Texture =>
      encodeFeatureIdTexture allocOk set.asTexture st.map st.nextId
  | .Implicit =>
      { encodedSet := some {}, map := st.map, nextId := st.nextId,
        logs := [] }
  | .None =>
      { encodedSet := none, map := st.map, nextId := st.nextId,
        logs := [] }

/-- The `for` loop of `encodePrimitiveFeaturesAnyThreadPart`
(lines 199 to 240), one recursive step per feature ID set; `i` is the loop
index into the original array. -/
def encodeFeatureIdSetsLoop (allocOk : Nat → Bool)
    (descs : List FCesiumFeatureIdSetDescription) :
    Nat → List FCesiumFeatureIdSet → FeatEncState → FeatEncState
  | _, [], st => st
  | i, set :: rest, st =>
    let name := (getNameForFeatureIDSet set st.counter).fst
    let counter' := (getNameForFeatureIDSet set st.counter).snd
    match descs.find? (fun d => d.Name == name) with
    | none =>
        encodeFeatureIdSetsLoop allocOk descs (i + 1) rest
          { st with counter := counter' }
    | some pDescription =>
        let step := encodeFeatureIdSetStep allocOk set st
        match step.encodedSet with
        | none =>
            encodeFeatureIdSetsLoop allocOk descs (i + 1) rest
              { result := st.result, counter := counter',
                map := step.map, nextId := step.nextId,
                logs := st.logs ++ step.logs }
        | some e =>
            let e' : EncodedFeatureIdSet :=
              { e with
                name := name,
                index := i,
                propertyTableName := pDescription.PropertyTableName,
                nullFeatureId := set.nullFeatureId }
            encodeFeatureIdSetsLoop allocOk descs (i + 1) rest
              { result := st.result ++ [e'],
                counter := counter',
                map := step.map, nextId := step.nextId,
                logs := st.logs ++ step.logs }

/-- `encodePrimitiveFeaturesAnyThreadPart` (lines 180 to 243), returning
the encoded result together with the emitted log. -/
def encodePrimitiveFeaturesAnyThreadPart (allocOk : Nat → Bool)
    (featuresDescription : FCesiumPrimitiveFeaturesDescription)
    (features : FCesiumPrimitiveFeatures) :
    EncodedPrimitiveFeatures × List LogSeverity :=
  let st := encodeFeatureIdSetsLoop allocOk
    featuresDescription.FeatureIdSets 0 features.featureIdSets
    { result := [], counter := 0, map := [], nextId := 0, logs := [] }
  ({ featureIdSets := st.result }, st.logs)

/-- `encodePrimitiveFeaturesGameThreadPart` (lines 245 to 270): realizes
each pending texture once, deduplicating by handle identity through the
accumulated `uniqueFeatureIdImages` array; `loadOk` gives the outcome of
`loadTextureGameThreadPart` on a handle. -/
def encodePrimitiveFeaturesGameThreadPart
    (loadOk : LoadedTextureResult → Bool)
    (encodedFeatures : EncodedPrimitiveFeatures) : Bool :=
  (encodedFeatures.featureIdSets.foldl
    (fun acc e =>
      match e.texture with
      | none => acc
      | some t =>
          if acc.2.any (fun u => u.id == t.pTexture.id) then acc
          else (acc.1 && loadOk t.pTexture, acc.2 ++ [t.pTexture]))
    (true, [])).1

/-- The textures actually realized by
`encodePrimitiveFeaturesGameThreadPart`, in realization order, starting
from an already-seen list `seen`; one `loadTextureGameThreadPart` call is
performed per element of this list, independently of any outcome. -/
def uniqueRealizedTextures :
    List LoadedTextureResult → List EncodedFeatureIdSet →
    List LoadedTextureResult
  | _, [] => []
  | seen, e :: rest =>
    match e.texture with
    | none => uniqueRealizedTextures seen rest
    | some t =>
        if seen.any (fun u => u.id == t.pTexture.id) then
          uniqueRealizedTextures seen rest
        else
          t.pTexture :: uniqueRealizedTextures (seen ++ [t.pTexture]) rest

/-- `FCesiumPropertyTableProperty` (live property): status, live value
type, live normalization, and the values returned by `GetOffset`,
`GetScale`, `GetNoDataValue`, `GetDefaultValue`. -/
structure FCesiumPropertyTableProperty where
  status : ECesiumPropertyTablePropertyStatus := .Invalid
  valueType : FCesiumMetadataValueType := {}
  isNormalized : Bool := false
  offset : FCesiumMetadataValue := {}
  scale : FCesiumMetadataValue := {}
  noDataValue : FCesiumMetadataValue := {}
  defaultValue : FCesiumMetadataValue := {}
deriving Repr, DecidableEq

/-- `FCesiumPropertyTable`: `GetPropertyTableName`, `getClassName`,
`GetPropertyTableCount` and `GetProperties` are embedded as fields; the
`TMap` of properties is embedded as an association list in iteration
order. -/
structure FCesiumPropertyTable where
  name : String := ""
  className : String := ""
  count : Nat := 0
  properties : List (String × FCesiumPropertyTableProperty) := []
deriving Repr, DecidableEq

/-- `getNameForPropertyTable` (lines 288 to 298): the table name, or the
class name when empty. -/
def getNameForPropertyTable (PropertyTable : FCesiumPropertyTable) :
    String :=
  if PropertyTable.name = "" then PropertyTable.className
  else PropertyTable.name

/-- The character set accepted as the head of an HLSL identifier
(`identifierHeadChar`, line 932). -/
def identifierHeadChar : List Char :=
  "abcdefghijklmnopqrstuvwxyzABCDEFGHIJKLMNOPQRSTUVWXYZ_".toList

/-- The character set accepted in the tail of an HLSL identifier
(`identifierTailChar`, line 934). -/
def identifierTailChar : List Char :=
  identifierHeadChar ++ "0123456789".toList

/-- Replacement applied to every character after the head by
`createHlslSafeName`: disallowed tail characters become an
underscore. -/
def hlslTailFix (ch : Char) : Char :=
  if identifierTailChar.contains ch then ch else '_'

/-- `createHlslSafeName` (lines 931 to 953): the empty name becomes `"_"`;
a disallowed head character is prefixed (not replaced) by an underscore;
every later disallowed character is replaced by an underscore. -/
def createHlslSafeName (rawName : String) : String :=
  match rawName.toList with
  | [] => "_"
  | c :: cs =>
      if identifierHeadChar.contains c then
        String.mk (c :: cs.map hlslTailFix)
      else
        String.mk ('_' :: (c :: cs).map hlslTailFix)

/-- The shader-safety predicate claimed of encoded names: non-empty, head
character in `[A-Za-z_]`, tail characters in `[A-Za-z0-9_]`. -/
def isShaderSafeIdentifier (s : String) : Bool :=
  match s.toList with
  | [] => false
  | c :: cs =>
      identifierHeadChar.contains c &&
        cs.all (fun ch => identifierTailChar.contains ch)

/-- `FCesiumMetadataEncodingDetails` (requested encoding): declared
encoded type, component type and conversion.  The C++ field `Type` is
embedded as `type`. -/
structure FCesiumMetadataEncodingDetails where
  type : ECesiumEncodedMetadataType := .None
  ComponentType : ECesiumEncodedMetadataComponentType := .None
  Conversion : ECesiumEncodedMetadataConversion := .None
deriving Repr, DecidableEq

/-- `FCesiumMetadataPropertyDetails` (declared property details): the
declared value type pieces and the presence flags.  The C++ field `Type`
is embedded as `type`. -/
structure FCesiumMetadataPropertyDetails where
  type : ECesiumMetadataType := .Invalid
  ComponentType : ECesiumMetadataComponentType := .None
  bIsArray : Bool := false
  bIsNormalized : Bool := false
  bHasOffset : Bool := false
  bHasScale : Bool := false
  bHasNoDataValue : Bool := false
  bHasDefaultValue : Bool := false
deriving Repr, DecidableEq

/-- `FCesiumMetadataPropertyDetails::GetValueType`. -/
def FCesiumMetadataPropertyDetails.GetValueType
    (d : FCesiumMetadataPropertyDetails) : FCesiumMetadataValueType :=
  { type := d.type, ComponentType := d.ComponentType,
    bIsArray := d.bIsArray }

/-- `FCesiumPropertyTablePropertyDescription` (requested property). -/
structure FCesiumPropertyTablePropertyDescription where
  Name : String := ""
  PropertyDetails : FCesiumMetadataPropertyDetails := {}
  EncodingDetails : FCesiumMetadataEncodingDetails := {}
deriving Repr, DecidableEq

/-- `FCesiumPropertyTableDescription`. -/
structure FCesiumPropertyTableDescription where
  Name : String := ""
  Properties : List FCesiumPropertyTablePropertyDescription := []
deriving Repr, DecidableEq

/-- `EncodedPropertyTableProperty`.  `pTexture` is a `TUniquePtr`, owned
by the property; the optional offset/scale/no-data/default values are
populated only under their description flags. -/
structure EncodedPropertyTableProperty where
  name : String := ""
  type : ECesiumEncodedMetadataType := .None
  pTexture : Option LoadedTextureResult := none
  offset : Option FCesiumMetadataValue := none
  scale : Option FCesiumMetadataValue := none
  noData : Option FCesiumMetadataValue := none
  defaultValue : Option FCesiumMetadataValue := none
deriving Repr, DecidableEq

/-- `EncodedPropertyTable`. -/
structure EncodedPropertyTable where
  name : String := ""
  properties : List EncodedPropertyTableProperty := []
deriving Repr, DecidableEq

/-- `EncodedPixelFormat` (lines 309 to 312). -/
structure EncodedPixelFormat where
  format : EPixelFormat := .PF_Unknown
  pixelSize : Nat := 0
deriving Repr, DecidableEq

/-- `getPixelFormat` (lines 316 to 344).  In the C++ `Float` outer case
the inner switch has no `None` label and control falls through to the
outer `default`, so `(Float, None)` also yields `PF_Unknown`. -/
def getPixelFormat (encodingDetails : FCesiumMetadataEncodingDetails) :
    EncodedPixelFormat :=
  match encodingDetails.ComponentType with
  | .Uint8 =>
      match encodingDetails.type with
      | .Scalar => { format := .PF_R8_UINT, pixelSize := 1 }
      | .Vec2 => { format := .PF_R8G8B8A8_UINT, pixelSize := 4 }
      | .Vec3 => { format := .PF_R8G8B8A8_UINT, pixelSize := 4 }
      | .Vec4 => { format := .PF_R8G8B8A8_UINT, pixelSize := 4 }
      | .None => { format := .PF_Unknown, pixelSize := 0 }
  | .Float =>
      match encodingDetails.type with
      | .Scalar => { format := .PF_R32_FLOAT, pixelSize := 4 }
      | .Vec2 => { format := .PF_A32B32G32R32F, pixelSize := 16 }
      | .Vec3 => { format := .PF_A32B32G32R32F, pixelSize := 16 }
      | .Vec4 => { format := .PF_A32B32G32R32F, pixelSize := 16 }
      | .None => { format := .PF_Unknown, pixelSize := 0 }
  | .None => { format := .PF_Unknown, pixelSize := 0 }

/-- `isValidPropertyTablePropertyDescription` (lines 346 to 404),
returning the verdict together with the emitted warnings.  A value-type
mismatch only warns (best-effort encode); a normalization mismatch, or
normalization on a non-`Uint8` component type, rejects the property. -/
def isValidPropertyTablePropertyDescription
    (propertyDescription : FCesiumPropertyTablePropertyDescription)
    (property : FCesiumPropertyTableProperty) :
    Bool × List LogSeverity :=
  if propertyDescription.EncodingDetails.type = .None then
    (false, [.Warning])
  else if propertyDescription.EncodingDetails.ComponentType = .None then
    (false, [.Warning])
  else
    let expectedType := propertyDescription.PropertyDetails.GetValueType
    let valueType := property.valueType
    let typeLogs : List LogSeverity :=
      if valueType ≠ expectedType then [.Warning] else []
    if propertyDescription.PropertyDetails.bIsNormalized ≠
        property.isNormalized then
      (false, typeLogs ++ [.Warning])
    else if property.isNormalized ∧
        valueType.ComponentType ≠ .Uint8 then
      (false, typeLogs ++ [.Warning])
    else
      (true, typeLogs)

/-- The square texture side length computed by
`encodePropertyTableAnyThreadPart` (lines 492 to 496):
`floor (sqrt count)` when that squares back to `count`, else one more. -/
def computeTextureDimension (count : Nat) : Nat :=
  let floorSqrtFeatureCount := Nat.sqrt count
  if floorSqrtFeatureCount * floorSqrtFeatureCount = count then
    floorSqrtFeatureCount
  else
    floorSqrtFeatureCount + 1

/-- The block of lines 546 to 566: attach offset, scale, no-data and
default values to the descriptor exactly under their description
presence flags. -/
def attachPresenceValues
    (pDescription : FCesiumPropertyTablePropertyDescription)
    (property : FCesiumPropertyTableProperty)
    (encodedProperty : EncodedPropertyTableProperty) :
    EncodedPropertyTableProperty :=
  let p1 :=
    if pDescription.PropertyDetails.bHasOffset then
      { encodedProperty with offset := some property.offset }
    else encodedProperty
  let p2 :=
    if pDescription.PropertyDetails.bHasScale then
      { p1 with scale := some property.scale }
    else p1
  let p3 :=
    if pDescription.PropertyDetails.bHasNoDataValue then
      { p2 with noData := some property.noDataValue }
    else p2
  if pDescription.PropertyDetails.bHasDefaultValue then
    { p3 with defaultValue := some property.defaultValue }
  else p3

/-- One iteration of the property loop of
`encodePropertyTableAnyThreadPart` (lines 424 to 567) for the map entry
`(key, property)`: `none` means the loop `continue`d before
`Emplace_GetRef`, `some p` means `p` is the property left in the output
array at the end of the iteration.  Note the source emplaces the
descriptor before allocating: on `createTexturePlatformData` failure
(`allocOk key = false`) the descriptor stays in the output, carrying a
handle with no texture data and none of the presence values. -/
def encodePropertyTableProperty
    (coerceCanEncode : FCesiumPropertyTablePropertyDescription → Bool)
    (parseColorCanEncode : FCesiumPropertyTablePropertyDescription → Bool)
    (allocOk : String → Bool)
    (descs : List FCesiumPropertyTablePropertyDescription) (count : Nat)
    (key : String) (property : FCesiumPropertyTableProperty) :
    Option EncodedPropertyTableProperty × List LogSeverity :=
  match descs.find? (fun d => d.Name == key) with
  | none => (none, [])
  | some pDescription =>
      if pDescription.EncodingDetails.Conversion = .None then
        (none, [])
      else
        let v := isValidPropertyTablePropertyDescription pDescription
          property
        if !v.fst then
          (none, v.snd)
        else if pDescription.EncodingDetails.Conversion = .Coerce ∧
            ¬ coerceCanEncode pDescription then
          (none, v.snd ++ [.Warning])
        else if pDescription.EncodingDetails.Conversion =
              .ParseColorFromString ∧
            ¬ parseColorCanEncode pDescription then
          (none, v.snd ++ [.Warning])
        else
          let encodedFormat := getPixelFormat pDescription.EncodingDetails
          if encodedFormat.format = .PF_Unknown then
            (none, v.snd ++ [.Warning])
          else
            let base : EncodedPropertyTableProperty :=
              { name := createHlslSafeName pDescription.Name,
                type := pDescription.EncodingDetails.type }
            if property.status = .Valid then
              let textureDimension := computeTextureDimension count
              let tex : LoadedTextureResult :=
                { id := 0, width := textureDimension,
                  height := textureDimension,
                  format := encodedFormat.format,
                  hasTextureData := allocOk key }
              if allocOk key then
                (some (attachPresenceValues pDescription property
                  { base with pTexture := some tex }), v.snd)
              else
                (some { base with pTexture := some tex },
                  v.snd ++ [.Error])
            else
              (some (attachPresenceValues pDescription property base),
                v.snd)

/-- `encodePropertyTableAnyThreadPart` (lines 408 to 570), returning the
encoded table together with the emitted log.  Each map entry is processed
independently; entries whose iteration never reached `Emplace_GetRef`
contribute nothing. -/
def encodePropertyTableAnyThreadPart
    (coerceCanEncode : FCesiumPropertyTablePropertyDescription → Bool)
    (parseColorCanEncode : FCesiumPropertyTablePropertyDescription → Bool)
    (allocOk : String → Bool)
    (propertyTableDescription : FCesiumPropertyTableDescription)
    (propertyTable : FCesiumPropertyTable) :
    EncodedPropertyTable × List LogSeverity :=
  let steps := propertyTable.properties.map (fun kv =>
    encodePropertyTableProperty coerceCanEncode parseColorCanEncode
      allocOk propertyTableDescription.Properties propertyTable.count
      kv.fst kv.snd)
  ({ name := "", properties := steps.filterMap (fun s => s.fst) },
    (steps.map (fun s => s.snd)).flatten)

/-- `FCesiumPropertyTextureDescription`. -/
structure FCesiumPropertyTextureDescription where
  Name : String := ""
deriving Repr, DecidableEq

/-- `FCesiumPropertyTexture`. -/
structure FCesiumPropertyTexture where
  name : String := ""
deriving Repr, DecidableEq

/-- `EncodedPropertyTextureProperty`. -/
structure EncodedPropertyTextureProperty where
  pTexture : LoadedTextureResult := {}
deriving Repr, DecidableEq

/-- `EncodedPropertyTexture`. -/
structure EncodedPropertyTexture where
  name : String := ""
  properties : List EncodedPropertyTextureProperty := []
deriving Repr, DecidableEq

/-- `FCesiumModelMetadataDescription`. -/
structure FCesiumModelMetadataDescription where
  PropertyTables : List FCesiumPropertyTableDescription := []
  PropertyTextures : List FCesiumPropertyTextureDescription := []
deriving Repr, DecidableEq

/-- `FCesiumModelMetadata`: `GetPropertyTables` and
`GetPropertyTextures` are embedded as fields. -/
structure FCesiumModelMetadata where
  propertyTables : List FCesiumPropertyTable := []
  propertyTextures : List FCesiumPropertyTexture := []
deriving Repr, DecidableEq

/-- `EncodedModelMetadata`. -/
structure EncodedModelMetadata where
  propertyTables : List EncodedPropertyTable := []
  propertyTextures : List EncodedPropertyTexture := []
deriving Repr, DecidableEq

/-- `encodePropertyTextureAnyThreadPart` (lines 572 to 725): the whole
property-encoding body is commented out in the source, so the function
returns an empty `EncodedPropertyTexture` for every input. -/
def encodePropertyTextureAnyThreadPart
    (featureTexturePropertyMap : List (Nat × LoadedTextureResult))
    (propertyTextureDescription : FCesiumPropertyTextureDescription)
    (featureTextureName : String)
    (propertyTexture : FCesiumPropertyTexture) : EncodedPropertyTexture :=
  {}

/-- `encodeModelMetadataAnyThreadPart` (lines 752 to 814): property
tables are matched by resolved name against the description and encoded;
the property-texture loop body is commented out in the source, so
`propertyTextures` stays empty. -/
def encodeModelMetadataAnyThreadPart
    (coerceCanEncode : FCesiumPropertyTablePropertyDescription → Bool)
    (parseColorCanEncode : FCesiumPropertyTablePropertyDescription → Bool)
    (allocOk : String → Bool)
    (metadataDescription : FCesiumModelMetadataDescription)
    (metadata : FCesiumModelMetadata) :
    EncodedModelMetadata × List LogSeverity :=
  let steps := metadata.propertyTables.filterMap (fun propertyTable =>
    let propertyTableName := getNameForPropertyTable propertyTable
    match metadataDescription.PropertyTables.find?
        (fun d => d.Name == propertyTableName) with
    | none => none
    | some pExpectedPropertyTable =>
        let r := encodePropertyTableAnyThreadPart coerceCanEncode
          parseColorCanEncode allocOk pExpectedPropertyTable propertyTable
        some ({ r.fst with name := propertyTableName }, r.snd))
  ({ propertyTables := steps.map (fun s => s.fst),
     propertyTextures := [] },
    (steps.map (fun s => s.snd)).flatten)

/-- `encodePropertyTableGameThreadPart` (lines 816 to 831): realize the
texture of every property that has one; no deduplication. -/
def encodePropertyTableGameThreadPart
    (loadOk : LoadedTextureResult → Bool)
    (encodedPropertyTable : EncodedPropertyTable) : Bool :=
  encodedPropertyTable.properties.foldl
    (fun success p =>
      match p.pTexture with
      | some tex => success && loadOk tex
      | none => success)
    true

/-- `encodePropertyTextureGameThreadPart` (lines 833 to 849): realize
each property texture once, deduplicating by handle identity through the
caller-shared `uniqueTextures` array (returned updated alongside the
success flag, which the source accumulates through the by-reference
argument). -/
def encodePropertyTextureGameThreadPart
    (loadOk : LoadedTextureResult → Bool)
    (uniqueTextures : List LoadedTextureResult)
    (encodedPropertyTexture : EncodedPropertyTexture) :
    Bool × List LoadedTextureResult :=
  encodedPropertyTexture.properties.foldl
    (fun acc p =>
      if acc.2.any (fun u => u.id == p.pTexture.id) then acc
      else (acc.1 && loadOk p.pTexture, acc.2 ++ [p.pTexture]))
    (true, uniqueTextures)

/-- `encodeModelMetadataGameThreadPart` (lines 873 to 891): realize all
property-texture textures (dedup shared across the whole model) and then
every property-table texture, AND-ing every outcome. -/
def encodeModelMetadataGameThreadPart
    (loadOk : LoadedTextureResult → Bool)
    (encodedMetadata : EncodedModelMetadata) : Bool :=
  let ptx := encodedMetadata.propertyTextures.foldl
    (fun acc e =>
      let r := encodePropertyTextureGameThreadPart loadOk acc.2 e
      (acc.1 && r.1, r.2))
    (true, [])
  encodedMetadata.propertyTables.foldl
    (fun success t => success && encodePropertyTableGameThreadPart loadOk t)
    ptx.1

/-- The textures realized by `encodePropertyTextureGameThreadPart` on one
encoded property texture, starting from an already-seen list. -/
def uniquePropertyTextureRealizations :
    List LoadedTextureResult → List EncodedPropertyTextureProperty →
    List LoadedTextureResult
  | _, [] => []
  | seen, p :: rest =>
      if seen.any (fun u => u.id == p.pTexture.id) then
        uniquePropertyTextureRealizations seen rest
      else
        p.pTexture ::
          uniquePropertyTextureRealizations (seen ++ [p.pTexture]) rest

/-- The textures realized by the property-texture phase of
`encodeModelMetadataGameThreadPart`, threading the shared seen list. -/
def modelPropertyTextureRealizations :
    List LoadedTextureResult → List EncodedPropertyTexture →
    List LoadedTextureResult
  | _, [] => []
  | seen, e :: rest =>
      let nr := uniquePropertyTextureRealizations seen e.properties
      nr ++ modelPropertyTextureRealizations (seen ++ nr) rest

/-- Every `loadTextureGameThreadPart` call performed by
`encodeModelMetadataGameThreadPart`, in order: the deduplicated
property-texture realizations followed by every property-table texture
(the table phase does not deduplicate). -/
def modelMetadataRealizations (encodedMetadata : EncodedModelMetadata) :
    List LoadedTextureResult :=
  modelPropertyTextureRealizations [] encodedMetadata.propertyTextures ++
    (encodedMetadata.propertyTables.map (fun t =>
      t.properties.filterMap (fun p => p.pTexture))).flatten

/-- The keys (image identities) of the deduplication map are pairwise
distinct: each source image is registered at most once. -/
def mapKeysNodup (m : List (Nat × LoadedTextureResult)) : Prop :=
  (m.map Prod.fst).Nodup

/-- Relation between an encoded feature ID set and the deduplication map:
if the live set it was encoded from (located through its recorded loop
`index`) is texture-typed, then the encoded set carries a texture whose
handle is registered in the map under that live set's source image
identity. -/
def entryImageInvariant (sets : List FCesiumFeatureIdSet)
    (m : List (Nat × LoadedTextureResult)) (e : EncodedFeatureIdSet) :
    Prop :=
  ∀ h : e.index < sets.length,
    (sets.get ⟨e.index, h⟩).type = .Texture →
      ∃ t, e.texture = some t ∧
        ((sets.get ⟨e.index, h⟩).asTexture.imageId, t.pTexture) ∈ m

/-! ## Theorems -/

/-- C10: `getNameForFeatureIDSet` increments its by-reference
`FeatureIdTextureCounter` argument by exactly one when and only when the
feature ID set carries no explicit label and is of `Texture` type; for
every other input (labeled sets of any type, attribute sets, implicit
sets and invalid or empty sets) the counter is returned unchanged. -/
theorem c10_counter_mutation (s : FCesiumFeatureIdSet) (c : Int) :
    (getNameForFeatureIDSet s c).snd =
      if s.label = "" ∧ s.type = .Texture then c + 1 else c := by
  unfold getNameForFeatureIDSet
  split_ifs with h1 h2 h3 h4 h5 <;> simp_all

/-- C9: the property-texture encoding path is an intentional placeholder:
`encodePropertyTextureAnyThreadPart` returns an `EncodedPropertyTexture`
with no properties for every input, and
`encodeModelMetadataAnyThreadPart` produces no encoded property texture
for any live property texture. -/
theorem c9_property_texture_placeholder
    (m : List (Nat × LoadedTextureResult))
    (d : FCesiumPropertyTextureDescription) (nm : String)
    (t : FCesiumPropertyTexture)
    (c p : FCesiumPropertyTablePropertyDescription → Bool)
    (a : String → Bool) (md : FCesiumModelMetadataDescription)
    (meta : FCesiumModelMetadata) :
    (encodePropertyTextureAnyThreadPart m d nm t).properties = [] ∧
      (encodeModelMetadataAnyThreadPart c p a md
        meta).fst.propertyTextures = [] :=
  ⟨rfl, rfl⟩

/-- C5, counterexample: on the one-character whitespace name `" "`,
`createHlslSafeName` prefixes an underscore and then replaces the space,
returning the two-character string `"__"`, not `"_"` as claimed. -/
theorem c5_counterexample : createHlslSafeName " " ≠ "_" := by decide

/-- Whitespace characters are not legal identifier characters, neither in
head nor in tail position. -/
theorem whitespace_not_identifier_char (ch : Char)
    (h : ch.isWhitespace = true) :
    ch ∉ identifierHeadChar ∧ ch ∉ identifierTailChar := by
  have hd : ((ch = ' ' ∨ ch = '\t') ∨ ch = '\x0d') ∨ ch = '\n' := by
    simpa [Char.isWhitespace] using h
  rcases hd with ((h | h) | h) | h <;> subst h <;>
    exact ⟨by decide, by decide⟩

/-- Mapping the tail-character fix over an all-whitespace character list
replaces every character by an underscore. -/
theorem map_hlslTailFix_whitespace (l : List Char)
    (h : ∀ ch ∈ l, ch.isWhitespace = true) :
    l.map hlslTailFix = List.replicate l.length '_' := by
  induction l with
  | nil => simp
  | cons c cs ih =>
      have hc := whitespace_not_identifier_char c
        (h c (List.mem_cons_self c cs))
      have hfix : hlslTailFix c = '_' := by
        unfold hlslTailFix
        simp [hc.2]
      simp [hfix, List.replicate_succ,
        ih (fun ch hm => h ch (List.mem_cons_of_mem _ hm))]

/-- C5, amended: `createHlslSafeName` maps the empty raw name to `"_"`,
but a purely-whitespace raw name of length `n ≥ 1` to a string of `n + 1`
underscores (the underscore prefixed for the invalid head character plus
one underscore replacing each whitespace character), not to the
one-character string `"_"`. -/
theorem c5_amended (raw : String)
    (h : raw.toList.all (fun ch => ch.isWhitespace) = true) :
    createHlslSafeName raw =
      if raw.toList.isEmpty then "_"
      else String.mk (List.replicate (raw.toList.length + 1) '_') := by
  rcases hl : raw.toList with _ | ⟨c, cs⟩
  · have hd : raw.data = [] := hl
    simp [createHlslSafeName, String.toList, hd]
  · have hd : raw.data = c :: cs := hl
    have hall : ∀ ch ∈ c :: cs, ch.isWhitespace = true := by
      rw [hl] at h
      simpa using h
    have hc := whitespace_not_identifier_char c
      (hall c (List.mem_cons_self _ _))
    have hhead : identifierHeadChar.contains c = false := by
      simpa using hc.1
    simp only [createHlslSafeName, String.toList, hd, hhead,
      Bool.false_eq_true, if_false, List.isEmpty_cons]
    rw [show (c :: cs).map hlslTailFix =
        List.replicate (c :: cs).length '_' from
      map_hlslTailFix_whitespace _ hall]
    simp [List.replicate_succ]

/-- C5, witness: the amended statement evaluated at the concrete
whitespace name `" "`. -/
theorem c5_witness :
    createHlslSafeName " " =
      if (" ".toList).isEmpty then "_"
      else String.mk (List.replicate ((" ".toList).length + 1) '_') :=
  c5_amended " " (by decide)

/-- C2, counterexample: at row count `n = 0` the computed dimension is
`0` and the claimed lower bound `(d - 1) * (d - 1) < n` is false
(`(0 - 1) * (0 - 1) = 1`, which is not below `0`). -/
theorem c2_counterexample :
    ¬ (((computeTextureDimension 0 : Int) - 1) *
        ((computeTextureDimension 0 : Int) - 1) < (0 : Int)) := by
  decide

/-- C2, amended: for every positive row count `n` the square texture side
length `d` computed by `encodePropertyTableAnyThreadPart` through
`computeTextureDimension` is the smallest side whose square holds one
texel per row: `d * d ≥ n` and `(d - 1) * (d - 1) < n`.  At the edge row
count `n = 0` the dimension is `0` (and the lower bound fails, see the
counterexample). -/
theorem c2_dimension_bounds (n : Nat) (h : 1 ≤ n) :
    ((n : Int) ≤ (computeTextureDimension n : Int) *
        (computeTextureDimension n : Int) ∧
      ((computeTextureDimension n : Int) - 1) *
        ((computeTextureDimension n : Int) - 1) < (n : Int)) ∧
    computeTextureDimension 0 = 0 := by
  refine ⟨?_, by decide⟩
  unfold computeTextureDimension
  by_cases hsq : Nat.sqrt n * Nat.sqrt n = n
  · simp only [hsq, if_pos rfl, if_true]
    have hs1 : 1 ≤ Nat.sqrt n := Nat.sqrt_pos.mpr h
    have hs1' : (1 : Int) ≤ (Nat.sqrt n : Int) := by exact_mod_cast hs1
    have heq : ((Nat.sqrt n : Int)) * (Nat.sqrt n : Int) = (n : Int) := by
      exact_mod_cast hsq
    constructor
    · exact le_of_eq heq.symm
    · nlinarith
  · simp only [if_neg hsq]
    have h1 : Nat.sqrt n * Nat.sqrt n ≤ n := Nat.sqrt_le n
    have h2 : n < (Nat.sqrt n + 1) * (Nat.sqrt n + 1) := Nat.lt_succ_sqrt n
    have h1' : ((Nat.sqrt n : Int)) * (Nat.sqrt n : Int) < (n : Int) := by
      have : Nat.sqrt n * Nat.sqrt n < n :=
        Nat.lt_of_le_of_ne h1 hsq
      exact_mod_cast this
    have h2' : (n : Int) < ((Nat.sqrt n : Int) + 1) *
        ((Nat.sqrt n : Int) + 1) := by exact_mod_cast h2
    constructor
    · push_cast
      nlinarith
    · push_cast
      nlinarith

/-- C2, witness: the amended statement at the concrete row count `10`,
where the dimension is `4` (`16 ≥ 10` and `9 < 10`). -/
theorem c2_witness :
    (((10 : Nat) : Int) ≤ (computeTextureDimension 10 : Int) *
        (computeTextureDimension 10 : Int) ∧
      ((computeTextureDimension 10 : Int) - 1) *
        ((computeTextureDimension 10 : Int) - 1) < ((10 : Nat) : Int)) ∧
    computeTextureDimension 0 = 0 :=
  c2_dimension_bounds 10 (by decide)

/-- The tail-character fix always lands in the tail character set. -/
theorem hlslTailFix_contains (ch : Char) :
    identifierTailChar.contains (hlslTailFix ch) = true := by
  unfold hlslTailFix
  cases h : identifierTailChar.contains ch
  · simp only [h, Bool.false_eq_true, if_false]
    decide
  · simp only [h, if_true]

/-- `createHlslSafeName` always produces a shader-safe identifier. -/
theorem createHlslSafeName_safe (raw : String) :
    isShaderSafeIdentifier (createHlslSafeName raw) = true := by
  have htail : ∀ l : List Char,
      (l.map hlslTailFix).all
        (fun ch => identifierTailChar.contains ch) = true := by
    intro l
    induction l with
    | nil => rfl
    | cons a l ih =>
        simp only [List.map_cons, List.all_cons, ih, Bool.and_true]
        exact hlslTailFix_contains a
  rcases hl : raw.toList with _ | ⟨c, cs⟩
  · have hd : raw.data = [] := hl
    simp only [createHlslSafeName, String.toList, hd]
    decide
  · have hd : raw.data = c :: cs := hl
    simp only [createHlslSafeName, String.toList, hd]
    cases hh : identifierHeadChar.contains c
    · simp only [Bool.false_eq_true, if_false]
      show isShaderSafeIdentifier
        (String.mk ('_' :: (c :: cs).map hlslTailFix)) = true
      simp only [isShaderSafeIdentifier, String.toList]
      rw [show identifierHeadChar.contains '_' = true from by decide]
      rw [htail (c :: cs)]
      rfl
    · simp only [if_true]
      show isShaderSafeIdentifier
        (String.mk (c :: cs.map hlslTailFix)) = true
      simp only [isShaderSafeIdentifier, String.toList]
      rw [hh, htail cs]
      rfl

/-- Attaching the optional offset, scale, no-data and default values
never changes the descriptor name. -/
theorem attachPresenceValues_name
    (pDescription : FCesiumPropertyTablePropertyDescription)
    (property : FCesiumPropertyTableProperty)
    (encodedProperty : EncodedPropertyTableProperty) :
    (attachPresenceValues pDescription property encodedProperty).name =
      encodedProperty.name := by
  simp only [attachPresenceValues]
  split_ifs <;> rfl

/-- Every descriptor that one iteration of the property-table loop
leaves in the output carries a `createHlslSafeName`-sanitized name, hence
a shader-safe one. -/
theorem encodePropertyTableProperty_name_safe
    (coerceCanEncode parseColorCanEncode :
      FCesiumPropertyTablePropertyDescription → Bool)
    (allocOk : String → Bool)
    (descs : List FCesiumPropertyTablePropertyDescription) (count : Nat)
    (key : String) (property : FCesiumPropertyTableProperty)
    (q : EncodedPropertyTableProperty)
    (h : (encodePropertyTableProperty coerceCanEncode parseColorCanEncode
        allocOk descs count key property).fst = some q) :
    isShaderSafeIdentifier q.name = true := by
  unfold encodePropertyTableProperty at h
  rcases hf : descs.find? (fun d => d.Name == key) with _ | pDescription
  · rw [hf] at h
    simp at h
  · rw [hf] at h
    simp only at h
    split_ifs at h <;>
      first
      | exact absurd h (fun hh => Option.noConfusion hh)
      | (obtain rfl := Option.some.inj h
         first
           | (rw [attachPresenceValues_name]
              exact createHlslSafeName_safe _)
           | exact createHlslSafeName_safe _)

/-- Every feature ID set the encoding loop adds to the output carries
the exact name of some requested description (the name is copied
verbatim from the match, with no sanitization). -/
theorem encodeFeatureIdSetsLoop_names (allocOk : Nat → Bool)
    (descs : List FCesiumFeatureIdSetDescription) :
    ∀ (rest : List FCesiumFeatureIdSet) (i : Nat) (st : FeatEncState),
      (∀ e ∈ st.result, descs.any (fun d => d.Name == e.name) = true) →
      ∀ e ∈ (encodeFeatureIdSetsLoop allocOk descs i rest st).result,
        descs.any (fun d => d.Name == e.name) = true := by
  intro rest
  induction rest with
  | nil =>
      intro i st h e he
      exact h e he
  | cons set rest ih =>
      intro i st h e
      simp only [encodeFeatureIdSetsLoop]
      rcases hf : descs.find?
          (fun d => d.Name ==
            (getNameForFeatureIDSet set st.counter).fst) with _ | pD
      · rw [hf]
        intro he
        exact ih (i + 1)
          { st with counter := (getNameForFeatureIDSet set st.counter).snd }
          h e he
      · have hPD := List.find?_some hf
        have hPDmem : pD ∈ descs := List.mem_of_find?_eq_some hf
        rw [hf]
        simp only
        rcases henc : (encodeFeatureIdSetStep allocOk set st).encodedSet
          with _ | e0
        · intro he
          exact ih (i + 1)
            { result := st.result,
              counter := (getNameForFeatureIDSet set st.counter).snd,
              map := (encodeFeatureIdSetStep allocOk set st).map,
              nextId := (encodeFeatureIdSetStep allocOk set st).nextId,
              logs := st.logs ++
                (encodeFeatureIdSetStep allocOk set st).logs }
            h e he
        · intro he
          refine ih (i + 1)
            { result := st.result ++
                [{ e0 with
                    name := (getNameForFeatureIDSet set st.counter).fst,
                    index := i,
                    propertyTableName := pD.PropertyTableName,
                    nullFeatureId := set.nullFeatureId }],
              counter := (getNameForFeatureIDSet set st.counter).snd,
              map := (encodeFeatureIdSetStep allocOk set st).map,
              nextId := (encodeFeatureIdSetStep allocOk set st).nextId,
              logs := st.logs ++
                (encodeFeatureIdSetStep allocOk set st).logs }
            ?_ e he
          intro e1 he1
          rcases List.mem_append.mp he1 with h1 | h1
          · exact h e1 h1
          · have he1' := List.mem_singleton.mp h1
            subst he1'
            refine List.any_eq_true.mpr ⟨pD, hPDmem, ?_⟩
            simpa using hPD

/-- C3, counterexample: a feature ID set carrying the explicit label
`"1 bad"` (digit head, embedded space) that matches a description of the
same name is encoded with that name copied verbatim —
`encodePrimitiveFeaturesAnyThreadPart` applies no sanitization to
feature ID set names, so the output name is not a shader-safe
identifier. -/
theorem c3_counterexample :
    ((encodePrimitiveFeaturesAnyThreadPart (fun _ => true)
        { FeatureIdSets := [{ Name := "1 bad", PropertyTableName := "" }] }
        { featureIdSets :=
            [{ label := "1 bad", type := .Implicit }] }).fst.featureIdSets.all
      (fun e => isShaderSafeIdentifier e.name)) = false := by
  decide

/-- C3, amended: every `EncodedPropertyTableProperty.name` is sanitized
through `createHlslSafeName` and is therefore a non-empty shader-safe
identifier (head in `[A-Za-z_]`, tail in `[A-Za-z0-9_]`, `"_"` for an
empty source name); every `EncodedFeatureIdSet.name`, however, is copied
verbatim from the matching requested description (no sanitization is
applied), so it is shader-safe only when the description name is. -/
theorem c3_encoded_names
    (coerceCanEncode parseColorCanEncode :
      FCesiumPropertyTablePropertyDescription → Bool)
    (tableAllocOk : String → Bool)
    (tableDescription : FCesiumPropertyTableDescription)
    (table : FCesiumPropertyTable)
    (allocOk : Nat → Bool)
    (featuresDescription : FCesiumPrimitiveFeaturesDescription)
    (features : FCesiumPrimitiveFeatures) :
    ((encodePropertyTableAnyThreadPart coerceCanEncode parseColorCanEncode
        tableAllocOk tableDescription table).fst.properties.all
      (fun q => isShaderSafeIdentifier q.name)) = true ∧
    ((encodePrimitiveFeaturesAnyThreadPart allocOk featuresDescription
        features).fst.featureIdSets.all
      (fun e => featuresDescription.FeatureIdSets.any
        (fun d => d.Name == e.name))) = true := by
  constructor
  · rw [List.all_eq_true]
    intro q hq
    simp only [encodePropertyTableAnyThreadPart] at hq
    rcases List.mem_filterMap.mp hq with ⟨s, hs, hsq⟩
    rcases List.mem_map.mp hs with ⟨kv, _, rfl⟩
    exact encodePropertyTableProperty_name_safe _ _ _ _ _ _ _ _ hsq
  · rw [List.all_eq_true]
    intro e he
    simp only [encodePrimitiveFeaturesAnyThreadPart] at he
    exact encodeFeatureIdSetsLoop_names allocOk
      featuresDescription.FeatureIdSets features.featureIdSets 0
      { result := [], counter := 0, map := [], nextId := 0, logs := [] }
      (by intro e1 he1; exact absurd he1 (List.not_mem_nil e1)) e he

/-- C6: a live item whose resolved name matches no requested description
by exact name equality is silently dropped.  For a property-table
property, the loop iteration produces no output entry and no log message;
for a feature ID set, the loop continues on the remaining sets with the
output, the deduplication map, the allocation counter and the log all
unchanged (only the running feature-ID-texture counter advances, as
`getNameForFeatureIDSet` may have incremented it). -/
theorem c6_unmatched_dropped
    (coerceCanEncode parseColorCanEncode :
      FCesiumPropertyTablePropertyDescription → Bool)
    (tableAllocOk : String → Bool)
    (descs : List FCesiumPropertyTablePropertyDescription) (count : Nat)
    (key : String) (property : FCesiumPropertyTableProperty)
    (allocOk : Nat → Bool) (fdescs : List FCesiumFeatureIdSetDescription)
    (set : FCesiumFeatureIdSet) (rest : List FCesiumFeatureIdSet)
    (i : Nat) (st : FeatEncState)
    (hTable : ∀ d ∈ descs, d.Name ≠ key)
    (hFeat : ∀ d ∈ fdescs,
      d.Name ≠ (getNameForFeatureIDSet set st.counter).fst) :
    encodePropertyTableProperty coerceCanEncode parseColorCanEncode
        tableAllocOk descs count key property = (none, []) ∧
    encodeFeatureIdSetsLoop allocOk fdescs i (set :: rest) st =
      encodeFeatureIdSetsLoop allocOk fdescs (i + 1) rest
        { st with
          counter := (getNameForFeatureIDSet set st.counter).snd } := by
  constructor
  · unfold encodePropertyTableProperty
    have hnone : descs.find? (fun d => d.Name == key) = none :=
      List.find?_eq_none.mpr (fun d hd => by simpa using hTable d hd)
    rw [hnone]
  · simp only [encodeFeatureIdSetsLoop]
    have hnone : fdescs.find?
        (fun d => d.Name ==
          (getNameForFeatureIDSet set st.counter).fst) = none :=
      List.find?_eq_none.mpr (fun d hd => by simpa using hFeat d hd)
    rw [hnone]

/-- C6, witness: the drop behavior evaluated at concrete unmatched
inputs (a property keyed `"missing"` against a description containing
only `"wanted"`, and a feature ID set labeled `"nomatch"` against the
same single-entry description list). -/
theorem c6_witness :
    encodePropertyTableProperty (fun _ => true) (fun _ => true)
        (fun _ => true)
        [{ Name := "wanted" }] 4 "missing"
        { status := .Valid } = (none, []) ∧
    encodeFeatureIdSetsLoop (fun _ => true)
        [{ Name := "wanted", PropertyTableName := "" }] 0
        [{ label := "nomatch", type := .Implicit }]
        { result := [], counter := 0, map := [], nextId := 0, logs := [] } =
      encodeFeatureIdSetsLoop (fun _ => true)
        [{ Name := "wanted", PropertyTableName := "" }] (0 + 1) []
        { result := [], counter := 0, map := [], nextId := 0,
          logs := [] } :=
  c6_unmatched_dropped (fun _ => true) (fun _ => true) (fun _ => true)
    [{ Name := "wanted" }] 4 "missing" { status := .Valid }
    (fun _ => true) [{ Name := "wanted", PropertyTableName := "" }]
    { label := "nomatch", type := .Implicit } [] 0
    { result := [], counter := 0, map := [], nextId := 0, logs := [] }
    (by decide) (by decide)

/-- C7: a property whose description declares normalization while the
live property's component type is not `Uint8` is always rejected by
`isValidPropertyTablePropertyDescription` (either through the
normalization-mismatch check or through the `Uint8`-only check), and the
encoding loop consequently produces no `EncodedPropertyTableProperty`
for it. -/
theorem c7_normalized_requires_uint8
    (coerceCanEncode parseColorCanEncode :
      FCesiumPropertyTablePropertyDescription → Bool)
    (tableAllocOk : String → Bool)
    (descs : List FCesiumPropertyTablePropertyDescription) (count : Nat)
    (key : String) (property : FCesiumPropertyTableProperty)
    (pDescription : FCesiumPropertyTablePropertyDescription)
    (hfind : descs.find? (fun d => d.Name == key) = some pDescription)
    (hnorm : pDescription.PropertyDetails.bIsNormalized = true)
    (hct : property.valueType.ComponentType ≠ .Uint8) :
    (isValidPropertyTablePropertyDescription pDescription
        property).fst = false ∧
    (encodePropertyTableProperty coerceCanEncode parseColorCanEncode
        tableAllocOk descs count key property).fst = none := by
  have hvalid : (isValidPropertyTablePropertyDescription pDescription
      property).fst = false := by
    unfold isValidPropertyTablePropertyDescription
    split_ifs <;> simp_all
  refine ⟨hvalid, ?_⟩
  unfold encodePropertyTableProperty
  rw [hfind]
  by_cases hc0 : pDescription.EncodingDetails.Conversion = .None
  · simp [hc0]
  · simp [hc0, hvalid]

/-- C7, witness: a description of a normalized scalar `Float32` property
matched against a live `Float32` property is rejected and produces no
encoded output. -/
theorem c7_witness :
    (isValidPropertyTablePropertyDescription
        { Name := "height",
          PropertyDetails :=
            { type := .Scalar, ComponentType := .Float32,
              bIsNormalized := true },
          EncodingDetails :=
            { type := .Scalar, ComponentType := .Float,
              Conversion := .Coerce } }
        { status := .Valid,
          valueType := { type := .Scalar, ComponentType := .Float32 },
          isNormalized := true }).fst = false ∧
    (encodePropertyTableProperty (fun _ => true) (fun _ => true)
        (fun _ => true)
        [{ Name := "height",
           PropertyDetails :=
             { type := .Scalar, ComponentType := .Float32,
               bIsNormalized := true },
           EncodingDetails :=
             { type := .Scalar, ComponentType := .Float,
               Conversion := .Coerce } }] 4 "height"
        { status := .Valid,
          valueType := { type := .Scalar, ComponentType := .Float32 },
          isNormalized := true }).fst = none :=
  c7_normalized_requires_uint8 (fun _ => true) (fun _ => true)
    (fun _ => true)
    [{ Name := "height",
       PropertyDetails :=
         { type := .Scalar, ComponentType := .Float32,
           bIsNormalized := true },
       EncodingDetails :=
         { type := .Scalar, ComponentType := .Float,
           Conversion := .Coerce } }] 4 "height"
    { status := .Valid,
      valueType := { type := .Scalar, ComponentType := .Float32 },
      isNormalized := true }
    { Name := "height",
      PropertyDetails :=
        { type := .Scalar, ComponentType := .Float32,
          bIsNormalized := true },
      EncodingDetails :=
        { type := .Scalar, ComponentType := .Float,
          Conversion := .Coerce } }
    (by decide) (by decide) (by decide)

/-- On a cache miss with failed texture allocation,
`encodeFeatureIdTexture` returns no descriptor, registers the data-less
handle in the deduplication map anyway (the source emplaces before
checking the allocation), advances the handle counter and logs one
error. -/
theorem encodeFeatureIdTexture_alloc_fail (allocOk : Nat → Bool)
    (texture : FCesiumFeatureIdTexture)
    (m : List (Nat × LoadedTextureResult)) (nid : Nat)
    (h1 : texture.status = .Valid)
    (h2 : m.find? (fun p => p.1 == texture.imageId) = none)
    (h3 : allocOk nid = false) :
    encodeFeatureIdTexture allocOk texture m nid =
      { encodedSet := none,
        map := m ++ [(texture.imageId,
          { id := nid, width := texture.imageWidth,
            height := texture.imageHeight,
            format := .PF_R8G8B8A8_UINT,
            hasTextureData := false })],
        nextId := nid + 1, logs := [.Error] } := by
  unfold encodeFeatureIdTexture
  simp [h1, h2, h3]

/-- C4, counterexample: a property-table property whose texture backing
allocation fails is NOT omitted from the encoded output — the descriptor
was emplaced before the allocation check, so it remains in the output
(named, with a handle carrying no texture data), contradicting the
claimed omission. -/
theorem c4_counterexample :
    ((encodePropertyTableAnyThreadPart (fun _ => true) (fun _ => true)
        (fun _ => false)
        { Name := "tbl",
          Properties :=
            [{ Name := "height",
               PropertyDetails :=
                 { type := .Scalar, ComponentType := .Uint8 },
               EncodingDetails :=
                 { type := .Scalar, ComponentType := .Uint8,
                   Conversion := .Coerce } }] }
        { name := "tbl", className := "", count := 10,
          properties :=
            [("height",
              { status := .Valid,
                valueType :=
                  { type := .Scalar,
                    ComponentType := .Uint8 } })] }).fst.properties.map
      (fun q => (q.name, q.pTexture.map (fun t => t.hasTextureData)))) =
      [("height", some false)] := by
  decide

/-- C4, amended: when `createTexturePlatformData` fails during
worker-phase encoding, an error-severity message is logged and encoding
of the remaining items continues in both paths, but the two paths treat
the failed item differently: a failed feature-ID texture set is omitted
from the encoded output (and its data-less handle still enters the
deduplication map), while a failed property-table property is NOT
omitted — its descriptor, emplaced before the allocation check, stays in
the output carrying a handle with no texture data and with none of the
offset/scale/no-data/default values attached. -/
theorem c4_alloc_failure
    (allocOk : Nat → Bool) (texture : FCesiumFeatureIdTexture)
    (m : List (Nat × LoadedTextureResult)) (nid : Nat)
    (fdescs : List FCesiumFeatureIdSetDescription)
    (set : FCesiumFeatureIdSet) (rest : List FCesiumFeatureIdSet)
    (i : Nat) (st : FeatEncState)
    (pD : FCesiumFeatureIdSetDescription)
    (coerceCanEncode parseColorCanEncode :
      FCesiumPropertyTablePropertyDescription → Bool)
    (tableAllocOk : String → Bool)
    (descs : List FCesiumPropertyTablePropertyDescription) (count : Nat)
    (key : String) (property : FCesiumPropertyTableProperty)
    (pD2 : FCesiumPropertyTablePropertyDescription)
    (hA1 : texture.status = .Valid)
    (hA2 : m.find? (fun p => p.1 == texture.imageId) = none)
    (hA3 : allocOk nid = false)
    (hB1 : set.type = .Texture)
    (hB2 : fdescs.find? (fun d => d.Name ==
      (getNameForFeatureIDSet set st.counter).fst) = some pD)
    (hB3 : set.asTexture.status = .Valid)
    (hB4 : st.map.find?
      (fun p => p.1 == set.asTexture.imageId) = none)
    (hB5 : allocOk st.nextId = false)
    (hC1 : descs.find? (fun d => d.Name == key) = some pD2)
    (hC2 : pD2.EncodingDetails.Conversion = .Coerce)
    (hC3 : coerceCanEncode pD2 = true)
    (hC4 : isValidPropertyTablePropertyDescription pD2 property =
      (true, []))
    (hC5 : (getPixelFormat pD2.EncodingDetails).format ≠ .PF_Unknown)
    (hC6 : property.status = .Valid)
    (hC7 : tableAllocOk key = false) :
    (encodeFeatureIdTexture allocOk texture m nid).encodedSet = none ∧
    (encodeFeatureIdTexture allocOk texture m nid).logs = [.Error] ∧
    encodeFeatureIdSetsLoop allocOk fdescs i (set :: rest) st =
      encodeFeatureIdSetsLoop allocOk fdescs (i + 1) rest
        { result := st.result,
          counter := (getNameForFeatureIDSet set st.counter).snd,
          map := st.map ++ [(set.asTexture.imageId,
            { id := st.nextId, width := set.asTexture.imageWidth,
              height := set.asTexture.imageHeight,
              format := .PF_R8G8B8A8_UINT,
              hasTextureData := false })],
          nextId := st.nextId + 1,
          logs := st.logs ++ [.Error] } ∧
    encodePropertyTableProperty coerceCanEncode parseColorCanEncode
        tableAllocOk descs count key property =
      (some { name := createHlslSafeName pD2.Name,
              type := pD2.EncodingDetails.type,
              pTexture := some
                { id := 0, width := computeTextureDimension count,
                  height := computeTextureDimension count,
                  format := (getPixelFormat pD2.EncodingDetails).format,
                  hasTextureData := false },
              offset := none, scale := none, noData := none,
              defaultValue := none },
        [.Error]) := by
  refine ⟨?_, ?_, ?_, ?_⟩
  · rw [encodeFeatureIdTexture_alloc_fail allocOk texture m nid hA1 hA2
      hA3]
  · rw [encodeFeatureIdTexture_alloc_fail allocOk texture m nid hA1 hA2
      hA3]
  · simp only [encodeFeatureIdSetsLoop]
    rw [hB2]
    have hstep : encodeFeatureIdSetStep allocOk set st =
        { encodedSet := none,
          map := st.map ++ [(set.asTexture.imageId,
            { id := st.nextId, width := set.asTexture.imageWidth,
              height := set.asTexture.imageHeight,
              format := .PF_R8G8B8A8_UINT,
              hasTextureData := false })],
          nextId := st.nextId + 1, logs := [.Error] } := by
      unfold encodeFeatureIdSetStep
      rw [hB1]
      exact encodeFeatureIdTexture_alloc_fail allocOk set.asTexture
        st.map st.nextId hB3 hB4 hB5
    rw [hstep]
  · unfold encodePropertyTableProperty
    rw [hC1]
    simp [hC2, hC3, hC4, hC5, hC6, hC7]

/-- C4, witness: the amended statement evaluated at a concrete failing
allocation (a valid feature-ID texture over image `7` and a valid
`Uint8` scalar property `"height"`, both with the allocation oracle
returning `false`). -/
theorem c4_witness :
    (encodeFeatureIdTexture (fun _ => false)
      { status := .Valid,
        channels := [0],
        texCoordSetIndex := 0,
        imageId := 7,
        imageWidth := 2,
        imageHeight := 2 }
      [] 0).encodedSet = none ∧
    (encodeFeatureIdTexture (fun _ => false)
      { status := .Valid,
        channels := [0],
        texCoordSetIndex := 0,
        imageId := 7,
        imageWidth := 2,
        imageHeight := 2 }
      [] 0).logs = [.Error] ∧
    encodeFeatureIdSetsLoop (fun _ => false)
        [{ Name := "A", PropertyTableName := "" }] 0
        [{ label := "A",
           type := .Texture,
           asTexture :=
             { status := .Valid,
               channels := [0],
               texCoordSetIndex := 0,
               imageId := 7,
               imageWidth := 2,
               imageHeight := 2 } }]
        { result := [],
          counter := 0,
          map := [],
          nextId := 0,
          logs := [] } =
      encodeFeatureIdSetsLoop (fun _ => false)
        [{ Name := "A", PropertyTableName := "" }] (0 + 1) []
        { result := ([] : List EncodedFeatureIdSet),
          counter :=
            (getNameForFeatureIDSet
              { label := "A",
                type := .Texture,
                asTexture :=
                  { status := .Valid,
                    channels := [0],
                    texCoordSetIndex := 0,
                    imageId := 7,
                    imageWidth := 2,
                    imageHeight := 2 } } 0).snd,
          map :=
            [] ++ [(7,
              { id := 0,
                width := 2,
                height := 2,
                format := .PF_R8G8B8A8_UINT,
                hasTextureData := false })],
          nextId := 0 + 1,
          logs := [] ++ [.Error] } ∧
    encodePropertyTableProperty (fun _ => true) (fun _ => true)
        (fun _ => false)
        [{ Name := "height",
           PropertyDetails :=
             { type := .Scalar, ComponentType := .Uint8 },
           EncodingDetails :=
             { type := .Scalar,
               ComponentType := .Uint8,
               Conversion := .Coerce } }] 10 "height"
        { status := .Valid,
          valueType :=
            { type := .Scalar, ComponentType := .Uint8 } } =
      (some
        { name := createHlslSafeName "height",
          type := ECesiumEncodedMetadataType.Scalar,
          pTexture :=
            some
              { id := 0,
                width := computeTextureDimension 10,
                height := computeTextureDimension 10,
                format := EPixelFormat.PF_R8_UINT,
                hasTextureData := false },
          offset := none,
          scale := none,
          noData := none,
          defaultValue := none },
        [.Error]) :=
  c4_alloc_failure (fun _ => false)
    { status := .Valid,
      channels := [0],
      texCoordSetIndex := 0,
      imageId := 7,
      imageWidth := 2,
      imageHeight := 2 }
    [] 0
    [{ Name := "A", PropertyTableName := "" }]
    { label := "A",
      type := .Texture,
      asTexture :=
        { status := .Valid,
          channels := [0],
          texCoordSetIndex := 0,
          imageId := 7,
          imageWidth := 2,
          imageHeight := 2 } }
    [] 0
    { result := [], counter := 0, map := [], nextId := 0, logs := [] }
    { Name := "A", PropertyTableName := "" }
    (fun _ => true) (fun _ => true) (fun _ => false)
    [{ Name := "height",
       PropertyDetails :=
         { type := .Scalar, ComponentType := .Uint8 },
       EncodingDetails :=
         { type := .Scalar,
           ComponentType := .Uint8,
           Conversion := .Coerce } }] 10 "height"
    { status := .Valid,
      valueType := { type := .Scalar, ComponentType := .Uint8 } }
    { Name := "height",
      PropertyDetails :=
        { type := .Scalar, ComponentType := .Uint8 },
      EncodingDetails :=
        { type := .Scalar,
          ComponentType := .Uint8,
          Conversion := .Coerce } }
    (by decide) (by decide) (by decide) (by decide) (by decide)
    (by decide) (by decide) (by decide) (by decide) (by decide)
    (by decide) (by decide) (by decide) (by decide) (by decide)

/-- The realization fold of `encodePrimitiveFeaturesGameThreadPart`,
started from an arbitrary accumulator: the success flag is the starting
flag AND-ed with the outcome of every newly realized texture, and the
seen list grows by exactly the newly realized textures (whose selection
does not depend on any outcome). -/
theorem featGameThread_foldl (loadOk : LoadedTextureResult → Bool) :
    ∀ (es : List EncodedFeatureIdSet) (b : Bool)
      (seen : List LoadedTextureResult),
      es.foldl
        (fun acc e =>
          match e.texture with
          | none => acc
          | some t =>
              if acc.2.any (fun u => u.id == t.pTexture.id) then acc
              else (acc.1 && loadOk t.pTexture, acc.2 ++ [t.pTexture]))
        (b, seen) =
      (b && (uniqueRealizedTextures seen es).all loadOk,
        seen ++ uniqueRealizedTextures seen es) := by
  intro es
  induction es with
  | nil =>
      intro b seen
      simp [uniqueRealizedTextures]
  | cons e rest ih =>
      intro b seen
      rcases ht : e.texture with _ | t
      · simp only [List.foldl_cons, ht]
        rw [ih b seen]
        simp [uniqueRealizedTextures, ht]
      · by_cases hmem : seen.any (fun u => u.id == t.pTexture.id) = true
        · simp only [List.foldl_cons, ht, hmem, if_true]
          rw [ih b seen]
          simp [uniqueRealizedTextures, ht, hmem]
        · simp only [List.foldl_cons, ht, hmem, Bool.false_eq_true,
            if_false]
          rw [ih (b && loadOk t.pTexture) (seen ++ [t.pTexture])]
          simp [uniqueRealizedTextures, ht, hmem, Bool.and_assoc]

/-- The per-property fold of `encodePropertyTableGameThreadPart`: the
result is the starting flag AND-ed with the outcome on every property
texture present (no deduplication). -/
theorem tableGameThread_foldl (loadOk : LoadedTextureResult → Bool) :
    ∀ (ps : List EncodedPropertyTableProperty) (b : Bool),
      ps.foldl
        (fun success p =>
          match p.pTexture with
          | some tex => success && loadOk tex
          | none => success) b =
      (b && (ps.filterMap (fun p => p.pTexture)).all loadOk) := by
  intro ps
  induction ps with
  | nil => intro b; simp
  | cons p rest ih =>
      intro b
      rcases hp : p.pTexture with _ | tex <;>
        simp [hp, ih, Bool.and_assoc]

/-- The realization fold of `encodePropertyTextureGameThreadPart`,
started from an arbitrary accumulator. -/
theorem ptxGameThread_foldl (loadOk : LoadedTextureResult → Bool) :
    ∀ (ps : List EncodedPropertyTextureProperty) (b : Bool)
      (seen : List LoadedTextureResult),
      ps.foldl
        (fun acc p =>
          if acc.2.any (fun u => u.id == p.pTexture.id) then acc
          else (acc.1 && loadOk p.pTexture, acc.2 ++ [p.pTexture]))
        (b, seen) =
      (b && (uniquePropertyTextureRealizations seen ps).all loadOk,
        seen ++ uniquePropertyTextureRealizations seen ps) := by
  intro ps
  induction ps with
  | nil =>
      intro b seen
      simp [uniquePropertyTextureRealizations]
  | cons p rest ih =>
      intro b seen
      by_cases hmem : seen.any (fun u => u.id == p.pTexture.id) = true
      · simp only [List.foldl_cons, hmem, if_true]
        rw [ih b seen]
        simp [uniquePropertyTextureRealizations, hmem]
      · simp only [List.foldl_cons, hmem, Bool.false_eq_true, if_false]
        rw [ih (b && loadOk p.pTexture) (seen ++ [p.pTexture])]
        simp [uniquePropertyTextureRealizations, hmem, Bool.and_assoc]

/-- The property-texture phase of `encodeModelMetadataGameThreadPart`,
started from an arbitrary accumulator. -/
theorem modelPtxGameThread_foldl (loadOk : LoadedTextureResult → Bool) :
    ∀ (ptxs : List EncodedPropertyTexture) (b : Bool)
      (seen : List LoadedTextureResult),
      ptxs.foldl
        (fun acc e =>
          let r := encodePropertyTextureGameThreadPart loadOk acc.2 e
          (acc.1 && r.1, r.2)) (b, seen) =
      (b && (modelPropertyTextureRealizations seen ptxs).all loadOk,
        seen ++ modelPropertyTextureRealizations seen ptxs) := by
  intro ptxs
  induction ptxs with
  | nil =>
      intro b seen
      simp [modelPropertyTextureRealizations]
  | cons e rest ih =>
      intro b seen
      simp only [List.foldl_cons]
      rw [show encodePropertyTextureGameThreadPart loadOk seen e =
          (true && (uniquePropertyTextureRealizations seen
              e.properties).all loadOk,
            seen ++ uniquePropertyTextureRealizations seen e.properties)
        from ptxGameThread_foldl loadOk e.properties true seen]
      simp only [Bool.true_and]
      rw [ih]
      simp [modelPropertyTextureRealizations, Bool.and_assoc,
        List.append_assoc]

/-- The property-table phase of `encodeModelMetadataGameThreadPart`,
started from an arbitrary flag. -/
theorem modelTablesGameThread_foldl (loadOk : LoadedTextureResult → Bool) :
    ∀ (ts : List EncodedPropertyTable) (b : Bool),
      ts.foldl
        (fun success t =>
          success && encodePropertyTableGameThreadPart loadOk t) b =
      (b && (ts.map (fun t =>
        t.properties.filterMap (fun p => p.pTexture))).flatten.all
          loadOk) := by
  intro ts
  induction ts with
  | nil => intro b; simp
  | cons t rest ih =>
      intro b
      simp only [List.foldl_cons]
      rw [ih]
      have ht : encodePropertyTableGameThreadPart loadOk t =
          (t.properties.filterMap (fun p => p.pTexture)).all loadOk := by
        unfold encodePropertyTableGameThreadPart
        rw [tableGameThread_foldl loadOk t.properties true]
        simp
      rw [ht]
      simp [Bool.and_assoc]

/-- C8: each game-thread phase function returns the logical AND of every
individual texture-realization outcome of its pass.  The list of
attempted realizations (`uniqueRealizedTextures`,
`modelMetadataRealizations`, the per-table texture list,
`uniquePropertyTextureRealizations`) is defined independently of the
outcome oracle `loadOk`, so a failed realization never prevents the
remaining realizations from being attempted — the result is exactly the
AND over that fixed list. -/
theorem c8_game_thread_success_and (loadOk : LoadedTextureResult → Bool)
    (encF : EncodedPrimitiveFeatures) (encM : EncodedModelMetadata)
    (encT : EncodedPropertyTable)
    (seen : List LoadedTextureResult) (encP : EncodedPropertyTexture) :
    encodePrimitiveFeaturesGameThreadPart loadOk encF =
      (uniqueRealizedTextures [] encF.featureIdSets).all loadOk ∧
    encodeModelMetadataGameThreadPart loadOk encM =
      (modelMetadataRealizations encM).all loadOk ∧
    encodePropertyTableGameThreadPart loadOk encT =
      (encT.properties.filterMap (fun p => p.pTexture)).all loadOk ∧
    (encodePropertyTextureGameThreadPart loadOk seen encP).fst =
      (uniquePropertyTextureRealizations seen
        encP.properties).all loadOk := by
  refine ⟨?_, ?_, ?_, ?_⟩
  · unfold encodePrimitiveFeaturesGameThreadPart
    rw [featGameThread_foldl loadOk encF.featureIdSets true []]
    simp
  · unfold encodeModelMetadataGameThreadPart
    rw [modelPtxGameThread_foldl loadOk encM.propertyTextures true []]
    simp only [Bool.true_and]
    rw [modelTablesGameThread_foldl loadOk encM.propertyTables]
    unfold modelMetadataRealizations
    rw [List.all_append]
  · unfold encodePropertyTableGameThreadPart
    rw [tableGameThread_foldl loadOk encT.properties true]
    simp
  · unfold encodePropertyTextureGameThreadPart
    rw [ptxGameThread_foldl loadOk encP.properties true seen]
    simp

/-- Dropping `i` elements and seeing `x :: r` locates `x` at index `i`
of the original list. -/
theorem drop_cons_get {α : Type} :
    ∀ (l : List α) (i : Nat) (x : α) (r : List α),
      l.drop i = x :: r →
      ∃ h : i < l.length, l.get ⟨i, h⟩ = x ∧ l.drop (i + 1) = r := by
  intro l
  induction l with
  | nil =>
      intro i x r h
      rw [List.drop_nil] at h
      exact absurd h (by simp)
  | cons a l ih =>
      intro i x r h
      cases i with
      | zero =>
          rw [List.drop_zero] at h
          obtain ⟨rfl, rfl⟩ := List.cons.inj h
          exact ⟨Nat.succ_pos _, rfl, by simp⟩
      | succ i =>
          rw [List.drop_succ_cons] at h
          obtain ⟨hlt, hget, hdrop⟩ := ih i x r h
          exact ⟨Nat.succ_lt_succ hlt, by simpa using hget, by
            simpa using hdrop⟩

/-- An association list with pairwise distinct keys is functional. -/
theorem assoc_map_functional :
    ∀ (m : List (Nat × LoadedTextureResult)), mapKeysNodup m →
      ∀ (a : Nat) (b₁ b₂ : LoadedTextureResult),
        (a, b₁) ∈ m → (a, b₂) ∈ m → b₁ = b₂ := by
  intro m
  induction m with
  | nil =>
      intro _ a b₁ b₂ h
      exact absurd h (List.not_mem_nil _)
  | cons p rest ih =>
      intro hnd a b₁ b₂ h1 h2
      unfold mapKeysNodup at hnd
      rw [List.map_cons, List.nodup_cons] at hnd
      rcases List.mem_cons.mp h1 with h1 | h1 <;>
        rcases List.mem_cons.mp h2 with h2 | h2
      · have := h1.trans h2.symm
        exact (Prod.mk.injEq _ _ _ _ ▸ this).2
      · exfalso
        apply hnd.1
        refine List.mem_map.mpr ⟨(a, b₂), h2, ?_⟩
        rw [← h1]
      · exfalso
        apply hnd.1
        refine List.mem_map.mpr ⟨(a, b₁), h1, ?_⟩
        rw [← h2]
      · exact ih hnd.2 a b₁ b₂ h1 h2

/-- `entryImageInvariant` is preserved when the map grows. -/
theorem entryImageInvariant_mono (sets : List FCesiumFeatureIdSet)
    (m m' : List (Nat × LoadedTextureResult)) (e : EncodedFeatureIdSet)
    (hsub : ∀ x ∈ m, x ∈ m')
    (h : entryImageInvariant sets m e) : entryImageInvariant sets m' e := by
  intro hlt hT
  obtain ⟨t, h1, h2⟩ := h hlt hT
  exact ⟨t, h1, hsub _ h2⟩

/-- Appending an entry whose key is absent keeps the map keys pairwise
distinct. -/
theorem mapKeysNodup_append (m : List (Nat × LoadedTextureResult))
    (a : Nat) (tex : LoadedTextureResult) (hnd : mapKeysNodup m)
    (hnone : m.find? (fun p => p.1 == a) = none) :
    mapKeysNodup (m ++ [(a, tex)]) := by
  unfold mapKeysNodup at *
  rw [List.map_append, List.nodup_append]
  refine ⟨hnd, List.nodup_singleton _, ?_⟩
  intro x hx hy
  have hxa : x = a := by simpa using hy
  subst hxa
  rcases List.mem_map.mp hx with ⟨p, hp, hpa⟩
  have hne := List.find?_eq_none.mp hnone p hp
  exact hne (by simp [hpa])

/-- Invariant of the feature-ID encoding loop: the deduplication map keys
stay pairwise distinct, and every encoded set in the output that stems
from a texture-typed live set carries a texture whose handle is
registered in the map under that live set's source image identity. -/
theorem encodeFeatureIdSetsLoop_invariant (allocOk : Nat → Bool)
    (descs : List FCesiumFeatureIdSetDescription)
    (sets : List FCesiumFeatureIdSet) :
    ∀ (rest : List FCesiumFeatureIdSet) (i : Nat) (st : FeatEncState),
      sets.drop i = rest →
      mapKeysNodup st.map →
      (∀ e ∈ st.result, entryImageInvariant sets st.map e) →
      mapKeysNodup (encodeFeatureIdSetsLoop allocOk descs i rest st).map ∧
      (∀ e ∈ (encodeFeatureIdSetsLoop allocOk descs i rest st).result,
        entryImageInvariant sets
          (encodeFeatureIdSetsLoop allocOk descs i rest st).map e) := by
  intro rest
  induction rest with
  | nil =>
      intro i st _ h1 h2
      exact ⟨h1, h2⟩
  | cons set rest ih =>
      intro i st hdrop hnd hinv
      obtain ⟨hlt, hget, hdrop'⟩ := drop_cons_get sets i set rest hdrop
      simp only [encodeFeatureIdSetsLoop]
      rcases hf : descs.find? (fun d => d.Name ==
          (getNameForFeatureIDSet set st.counter).fst) with _ | pD
      · rw [hf]
        exact ih (i + 1)
          { st with counter := (getNameForFeatureIDSet set st.counter).snd }
          hdrop' hnd hinv
      · rw [hf]
        simp only
        rcases hty : set.type
        case None =>
          have hstep : encodeFeatureIdSetStep allocOk set st =
              { encodedSet := none, map := st.map, nextId := st.nextId,
                logs := [] } := by
            unfold encodeFeatureIdSetStep
            rw [hty]
          rw [hstep]
          exact ih (i + 1)
            { result := st.result,
              counter := (getNameForFeatureIDSet set st.counter).snd,
              map := st.map, nextId := st.nextId, logs := st.logs ++ [] }
            hdrop' hnd hinv
        case Attribute =>
          rcases hattr : encodeFeatureIdAttribute set.asAttribute
            with ⟨enc?, lg⟩
          have hstep : encodeFeatureIdSetStep allocOk set st =
              { encodedSet := enc?, map := st.map, nextId := st.nextId,
                logs := lg } := by
            unfold encodeFeatureIdSetStep
            rw [hty]
            simp [hattr]
          rw [hstep]
          rcases enc? with _ | e0
          · exact ih (i + 1)
              { result := st.result,
                counter := (getNameForFeatureIDSet set st.counter).snd,
                map := st.map, nextId := st.nextId,
                logs := st.logs ++ lg }
              hdrop' hnd hinv
          · refine ih (i + 1)
              { result := st.result ++
                  [{ e0 with
                      name := (getNameForFeatureIDSet set st.counter).fst,
                      index := i,
                      propertyTableName := pD.PropertyTableName,
                      nullFeatureId := set.nullFeatureId }],
                counter := (getNameForFeatureIDSet set st.counter).snd,
                map := st.map, nextId := st.nextId,
                logs := st.logs ++ lg }
              hdrop' hnd ?_
            intro e1 he1
            rcases List.mem_append.mp he1 with h1 | h1
            · exact hinv e1 h1
            · have he1' := List.mem_singleton.mp h1
              subst he1'
              intro hlt' hT
              exfalso
              have hgs : sets.get ⟨i, hlt'⟩ = set := hget
              have hT2 : (sets.get ⟨i, hlt'⟩).type =
                  ECesiumFeatureIdSetType.Texture := hT
              rw [hgs, hty] at hT2
              exact ECesiumFeatureIdSetType.noConfusion hT2
        case Implicit =>
          have hstep : encodeFeatureIdSetStep allocOk set st =
              { encodedSet := some {}, map := st.map, nextId := st.nextId,
                logs := [] } := by
            unfold encodeFeatureIdSetStep
            rw [hty]
          rw [hstep]
          refine ih (i + 1)
            { result := st.result ++
                [{ ({} : EncodedFeatureIdSet) with
                    name := (getNameForFeatureIDSet set st.counter).fst,
                    index := i,
                    propertyTableName := pD.PropertyTableName,
                    nullFeatureId := set.nullFeatureId }],
              counter := (getNameForFeatureIDSet set st.counter).snd,
              map := st.map, nextId := st.nextId,
              logs := st.logs ++ [] }
            hdrop' hnd ?_
          intro e1 he1
          rcases List.mem_append.mp he1 with h1 | h1
          · exact hinv e1 h1
          · have he1' := List.mem_singleton.mp h1
            subst he1'
            intro hlt' hT
            exfalso
            have hgs : sets.get ⟨i, hlt'⟩ = set := hget
            have hT2 : (sets.get ⟨i, hlt'⟩).type =
                ECesiumFeatureIdSetType.Texture := hT
            rw [hgs, hty] at hT2
            exact ECesiumFeatureIdSetType.noConfusion hT2
        case Texture =>
          by_cases hvs : set.asTexture.status = .Valid
          · rcases hfind2 : st.map.find?
                (fun p => p.1 == set.asTexture.imageId) with _ | entry
            · by_cases hao : allocOk st.nextId = true
              · -- cache miss, allocation succeeds: new handle registered
                have hstep : encodeFeatureIdSetStep allocOk set st =
                    { encodedSet :=
                        some
                          { texture :=
                              some
                                { channels := set.asTexture.channels,
                                  textureCoordinateSetIndex :=
                                    set.asTexture.texCoordSetIndex,
                                  pTexture :=
                                    { id := st.nextId,
                                      width := set.asTexture.imageWidth,
                                      height := set.asTexture.imageHeight,
                                      format := .PF_R8G8B8A8_UINT,
                                      hasTextureData :=
                                        allocOk st.nextId } } },
                      map :=
                        st.map ++ [(set.asTexture.imageId,
                          { id := st.nextId,
                            width := set.asTexture.imageWidth,
                            height := set.asTexture.imageHeight,
                            format := .PF_R8G8B8A8_UINT,
                            hasTextureData := allocOk st.nextId })],
                      nextId := st.nextId + 1, logs := [] } := by
                  unfold encodeFeatureIdSetStep
                  rw [hty]
                  simp [encodeFeatureIdTexture, hvs, hfind2, hao]
                rw [hstep]
                have hnd' : mapKeysNodup (st.map ++
                    [(set.asTexture.imageId,
                      { id := st.nextId,
                        width := set.asTexture.imageWidth,
                        height := set.asTexture.imageHeight,
                        format := .PF_R8G8B8A8_UINT,
                        hasTextureData := allocOk st.nextId })]) :=
                  mapKeysNodup_append st.map set.asTexture.imageId _
                    hnd hfind2
                refine ih (i + 1) _ hdrop' hnd' ?_
                intro e1 he1
                rcases List.mem_append.mp he1 with h1 | h1
                · exact entryImageInvariant_mono sets st.map _ e1
                    (fun x hx => List.mem_append_left _ hx) (hinv e1 h1)
                · have he1' := List.mem_singleton.mp h1
                  subst he1'
                  intro hlt' hT
                  refine ⟨_, rfl, ?_⟩
                  have hgs : sets.get ⟨i, hlt'⟩ = set := hget
                  show ((sets.get ⟨i, hlt'⟩).asTexture.imageId, _) ∈ _
                  rw [hgs]
                  exact List.mem_append_right _ (List.mem_singleton.mpr
                    rfl)
              · -- cache miss, allocation fails: no output entry, but the
                -- data-less handle is still registered
                have hao' : allocOk st.nextId = false := by
                  simpa using hao
                have hstep : encodeFeatureIdSetStep allocOk set st =
                    { encodedSet := none,
                      map :=
                        st.map ++ [(set.asTexture.imageId,
                          { id := st.nextId,
                            width := set.asTexture.imageWidth,
                            height := set.asTexture.imageHeight,
                            format := .PF_R8G8B8A8_UINT,
                            hasTextureData := false })],
                      nextId := st.nextId + 1, logs := [.Error] } := by
                  unfold encodeFeatureIdSetStep
                  rw [hty]
                  exact encodeFeatureIdTexture_alloc_fail allocOk
                    set.asTexture st.map st.nextId hvs hfind2 hao'
                rw [hstep]
                have hnd' := mapKeysNodup_append st.map
                  set.asTexture.imageId
                  { id := st.nextId, width := set.asTexture.imageWidth,
                    height := set.asTexture.imageHeight,
                    format := .PF_R8G8B8A8_UINT,
                    hasTextureData := false } hnd hfind2
                refine ih (i + 1) _ hdrop' hnd' ?_
                intro e1 he1
                exact entryImageInvariant_mono sets st.map _ e1
                  (fun x hx => List.mem_append_left _ hx) (hinv e1 he1)
            · -- cache hit: the existing handle is shared
              have hstep : encodeFeatureIdSetStep allocOk set st =
                  { encodedSet :=
                      some
                        { texture :=
                            some
                              { channels := set.asTexture.channels,
                                textureCoordinateSetIndex :=
                                  set.asTexture.texCoordSetIndex,
                                pTexture := entry.2 } },
                    map := st.map, nextId := st.nextId, logs := [] } := by
                unfold encodeFeatureIdSetStep
                rw [hty]
                simp [encodeFeatureIdTexture, hvs, hfind2]
              rw [hstep]
              refine ih (i + 1) _ hdrop' hnd ?_
              intro e1 he1
              rcases List.mem_append.mp he1 with h1 | h1
              · exact hinv e1 h1
              · have he1' := List.mem_singleton.mp h1
                subst he1'
                intro hlt' hT
                refine ⟨_, rfl, ?_⟩
                have hgs : sets.get ⟨i, hlt'⟩ = set := hget
                show ((sets.get ⟨i, hlt'⟩).asTexture.imageId, entry.2) ∈
                  st.map
                rw [hgs]
                have hkey : entry.fst = set.asTexture.imageId := by
                  simpa using List.find?_some hfind2
                have hmem : entry ∈ st.map :=
                  List.mem_of_find?_eq_some hfind2
                rw [← hkey]
                simpa using hmem
          · -- invalid texture status: warn and skip
            have hvs' : set.asTexture.status = .Invalid := by
              cases hst : set.asTexture.status
              · exact absurd hst hvs
              · rfl
            have hstep : encodeFeatureIdSetStep allocOk set st =
                { encodedSet := none, map := st.map, nextId := st.nextId,
                  logs := [.Warning] } := by
              unfold encodeFeatureIdSetStep
              rw [hty]
              simp [encodeFeatureIdTexture, hvs']
            rw [hstep]
            exact ih (i + 1)
              { result := st.result,
                counter := (getNameForFeatureIDSet set st.counter).snd,
                map := st.map, nextId := st.nextId,
                logs := st.logs ++ [.Warning] }
              hdrop' hnd hinv

/-- Exact realization count in the game-thread pass: a handle id is
realized zero times when already seen, once when some encoded set carries
it, and zero times otherwise. -/
theorem uniqueRealizedTextures_countP (h : Nat) :
    ∀ (es : List EncodedFeatureIdSet) (seen : List LoadedTextureResult),
      List.countP (fun u => u.id == h) (uniqueRealizedTextures seen es) =
        if seen.any (fun u => u.id == h) then 0
        else if es.any (fun e =>
            match e.texture with
            | some t => t.pTexture.id == h
            | none => false) then 1 else 0 := by
  intro es
  induction es with
  | nil =>
      intro seen
      simp [uniqueRealizedTextures]
  | cons e rest ih =>
      intro seen
      rcases ht : e.texture with _ | t
      · simp only [uniqueRealizedTextures, ht]
        rw [ih seen]
        simp [List.any_cons, ht]
      · by_cases hmem : seen.any
            (fun u => u.id == t.pTexture.id) = true
        · simp only [uniqueRealizedTextures, ht, hmem, if_true]
          rw [ih seen]
          by_cases hsh : seen.any (fun u => u.id == h) = true
          · simp [hsh]
          · have hne : (t.pTexture.id == h) = false := by
              rcases hbe : t.pTexture.id == h
              · rfl
              · exfalso
                have : t.pTexture.id = h := by simpa using hbe
                rw [this] at hmem
                exact hsh hmem
            simp [hsh, List.any_cons, ht, hne]
        · simp only [uniqueRealizedTextures, ht, hmem,
            Bool.false_eq_true, if_false]
          rw [List.countP_cons, ih (seen ++ [t.pTexture])]
          rcases hid : t.pTexture.id == h
          · have hany : ((seen ++ [t.pTexture]).any
                (fun u => u.id == h)) = seen.any (fun u => u.id == h) := by
              simp [List.any_append, hid]
            rw [hany]
            simp [List.any_cons, ht, hid]
          · have hidh : t.pTexture.id = h := by simpa using hid
            subst hidh
            have hsh : seen.any
                (fun u => u.id == t.pTexture.id) = false := by
              simpa using hmem
            have hany : ((seen ++ [t.pTexture]).any
                (fun u => u.id == t.pTexture.id)) = true := by
              simp [List.any_append]
            rw [hany]
            simp [hsh, List.any_cons, ht]

/-- C1: two feature-ID sets encoded in one
`encodePrimitiveFeaturesAnyThreadPart` pass that stem from texture-typed
live sets referencing the identical source image (same `ImageCesium`
identity) carry the same underlying texture handle, and the subsequent
`encodePrimitiveFeaturesGameThreadPart` performs exactly one texture
realization for that shared handle (`uniqueRealizedTextures` is its
realization list, see `featGameThread_foldl`). -/
theorem c1_shared_image_single_realization (allocOk : Nat → Bool)
    (featuresDescription : FCesiumPrimitiveFeaturesDescription)
    (features : FCesiumPrimitiveFeatures)
    (e₁ e₂ : EncodedFeatureIdSet)
    (h₁ : e₁ ∈ (encodePrimitiveFeaturesAnyThreadPart allocOk
      featuresDescription features).fst.featureIdSets)
    (h₂ : e₂ ∈ (encodePrimitiveFeaturesAnyThreadPart allocOk
      featuresDescription features).fst.featureIdSets)
    (hi : e₁.index < features.featureIdSets.length)
    (hj : e₂.index < features.featureIdSets.length)
    (hty₁ : (features.featureIdSets.get ⟨e₁.index, hi⟩).type = .Texture)
    (hty₂ : (features.featureIdSets.get ⟨e₂.index, hj⟩).type = .Texture)
    (himg : (features.featureIdSets.get
        ⟨e₁.index, hi⟩).asTexture.imageId =
      (features.featureIdSets.get ⟨e₂.index, hj⟩).asTexture.imageId) :
    ∃ t₁ t₂, e₁.texture = some t₁ ∧ e₂.texture = some t₂ ∧
      t₁.pTexture = t₂.pTexture ∧
      List.countP (fun u => u.id == t₁.pTexture.id)
        (uniqueRealizedTextures []
          (encodePrimitiveFeaturesAnyThreadPart allocOk
            featuresDescription features).fst.featureIdSets) = 1 := by
  obtain ⟨hnd, hinv⟩ := encodeFeatureIdSetsLoop_invariant allocOk
    featuresDescription.FeatureIdSets features.featureIdSets
    features.featureIdSets 0
    { result := [], counter := 0, map := [], nextId := 0, logs := [] }
    rfl (by simp [mapKeysNodup])
    (fun e he => absurd he (List.not_mem_nil e))
  have h₁' : e₁ ∈ (encodeFeatureIdSetsLoop allocOk
      featuresDescription.FeatureIdSets 0 features.featureIdSets
      { result := [], counter := 0, map := [], nextId := 0,
        logs := [] }).result := h₁
  have h₂' : e₂ ∈ (encodeFeatureIdSetsLoop allocOk
      featuresDescription.FeatureIdSets 0 features.featureIdSets
      { result := [], counter := 0, map := [], nextId := 0,
        logs := [] }).result := h₂
  obtain ⟨t₁, ht₁, hm₁⟩ := hinv e₁ h₁' hi hty₁
  obtain ⟨t₂, ht₂, hm₂⟩ := hinv e₂ h₂' hj hty₂
  rw [← himg] at hm₂
  have heq : t₁.pTexture = t₂.pTexture :=
    assoc_map_functional _ hnd _ _ _ hm₁ hm₂
  refine ⟨t₁, t₂, ht₁, ht₂, heq, ?_⟩
  rw [uniqueRealizedTextures_countP t₁.pTexture.id
    (encodePrimitiveFeaturesAnyThreadPart allocOk featuresDescription
      features).fst.featureIdSets []]
  have hpres : ((encodePrimitiveFeaturesAnyThreadPart allocOk
      featuresDescription features).fst.featureIdSets.any (fun e =>
        match e.texture with
        | some t => t.pTexture.id == t₁.pTexture.id
        | none => false)) = true :=
    List.any_eq_true.mpr ⟨e₁, h₁, by rw [ht₁]; simp⟩
  simp [hpres]

/-- C1, witness: two texture-backed feature ID sets labeled `"A"` and
`"B"`, both over source image `7`, are encoded in one pass; both encoded
descriptors share the handle allocated first (id `0`) and the game-thread
pass realizes it exactly once. -/
theorem c1_witness :
    ∃ t₁ t₂,
      ({ name := "A", index := 0, propertyTableName := "",
         nullFeatureId := -1, attributeIndex := none,
         texture :=
           some
             { channels := [0],
               textureCoordinateSetIndex := 0,
               pTexture :=
                 { id := 0, width := 2, height := 2,
                   format := .PF_R8G8B8A8_UINT,
                   hasTextureData := true } } } :
        EncodedFeatureIdSet).texture = some t₁ ∧
      ({ name := "B", index := 1, propertyTableName := "",
         nullFeatureId := -1, attributeIndex := none,
         texture :=
           some
             { channels := [1],
               textureCoordinateSetIndex := 0,
               pTexture :=
                 { id := 0, width := 2, height := 2,
                   format := .PF_R8G8B8A8_UINT,
                   hasTextureData := true } } } :
        EncodedFeatureIdSet).texture = some t₂ ∧
      t₁.pTexture = t₂.pTexture ∧
      List.countP (fun u => u.id == t₁.pTexture.id)
        (uniqueRealizedTextures []
          (encodePrimitiveFeaturesAnyThreadPart (fun _ => true)
            { FeatureIdSets :=
                [{ Name := "A", PropertyTableName := "" },
                 { Name := "B", PropertyTableName := "" }] }
            { featureIdSets :=
                [{ label := "A",
                   type := .Texture,
                   asTexture :=
                     { status := .Valid,
                       channels := [0],
                       texCoordSetIndex := 0,
                       imageId := 7,
                       imageWidth := 2,
                       imageHeight := 2 } },
                 { label := "B",
                   type := .Texture,
                   asTexture :=
                     { status := .Valid,
                       channels := [1],
                       texCoordSetIndex := 0,
                       imageId := 7,
                       imageWidth := 2,
                       imageHeight := 2 } }] }).fst.featureIdSets) = 1 :=
  c1_shared_image_single_realization (fun _ => true)
    { FeatureIdSets :=
        [{ Name := "A", PropertyTableName := "" },
         { Name := "B", PropertyTableName := "" }] }
    { featureIdSets :=
        [{ label := "A",
           type := .Texture,
           asTexture :=
             { status := .Valid,
               channels := [0],
               texCoordSetIndex := 0,
               imageId := 7,
               imageWidth := 2,
               imageHeight := 2 } },
         { label := "B",
           type := .Texture,
           asTexture :=
             { status := .Valid,
               channels := [1],
               texCoordSetIndex := 0,
               imageId := 7,
               imageWidth := 2,
               imageHeight := 2 } }] }
    { name := "A", index := 0, propertyTableName := "",
      nullFeatureId := -1, attributeIndex := none,
      texture :=
        some
          { channels := [0],
            textureCoordinateSetIndex := 0,
            pTexture :=
              { id := 0, width := 2, height := 2,
                format := .PF_R8G8B8A8_UINT,
                hasTextureData := true } } }
    { name := "B", index := 1, propertyTableName := "",
      nullFeatureId := -1, attributeIndex := none,
      texture :=
        some
          { channels := [1],
            textureCoordinateSetIndex := 0,
            pTexture :=
              { id := 0, width := 2, height := 2,
                format := .PF_R8G8B8A8_UINT,
                hasTextureData := true } } }
    (by decide) (by decide) (by decide) (by decide) (by decide)
    (by decide) (by decide)

end CesiumEncodedFeaturesMetadata
